import Mathlib

/-!
Verification of the support-coach ticket-evaluation pipeline (src/app.py).

This file gives a shallow embedding, in Lean 4, of the parts of `src/app.py`
that the specification's claims are about:

* `normalize_zendesk_ticket` — the transcript normalizer (app.py lines 68-88);
* the JSON strip-and-parse block inside `evaluate_ticket` (lines 214-224),
  together with a model of Python's `json.loads` / `json.dumps` restricted to
  null/bool/integer/string/array/object values (numeric literals with a
  fraction or exponent, which the schema never uses, are outside the model);
* the `run_eval` handler's coaching-history record/dedup block (lines 548-578),
  keyed by the SHA-256 hex digest of the UTF-8 encoded transcript, which is
  implemented here in full;
* the Step-2 KB-generation gating condition (lines 644-660);
* the `Counter`-based root-cause aggregation (lines 710 and 853-858).

Python dictionaries decoded from model output are embedded as the `Json`
inductive; dictionary access `d.get(k, default)` is embedded as
`(jGet d k).getD default`.  Where Python would raise on a non-dict receiver
(`AttributeError`), the embedding totalises `jGet` to `none`; in every such
case the Python handler aborts without touching the coaching store, and the
embedding leaves the store untouched as well, so store-level statements are
unaffected.  Python `str` operations used by the code (`strip`, `strip("`")`,
`lower`, `capitalize`, slicing) are embedded character-for-character; `lower`
and `capitalize` are embedded on the ASCII range (identity elsewhere), which
agrees with Python on every character relevant to the code's comparisons.
Python object equality on decoded values is embedded as `Json.beq`, proved
equivalent to propositional equality below (duplicate-key objects, on which
Python `dict` collapses keys, do not arise in any statement in this file).
-/

/-! ## The Json value model -/

/-- Embedding of the Python values produced by `json.loads`: `None`, `bool`,
`int`, `str`, `list`, `dict` (as an ordered association list). -/
inductive Json where
  | null
  | bool (b : Bool)
  | int (n : Int)
  | str (s : String)
  | arr (elems : List Json)
  | obj (members : List (String × Json))
deriving Repr

mutual

/-- Boolean equality on `Json` values (Python `==` on decoded values). -/
def Json.beq : Json → Json → Bool
  | .null, .null => true
  | .bool a, .bool b => a == b
  | .int a, .int b => a == b
  | .str a, .str b => a == b
  | .arr a, .arr b => Json.beqElems a b
  | .obj a, .obj b => Json.beqMembers a b
  | _, _ => false

/-- Pointwise `Json.beq` on array elements. -/
def Json.beqElems : List Json → List Json → Bool
  | [], [] => true
  | p :: ps, q :: qs => Json.beq p q && Json.beqElems ps qs
  | _, _ => false

/-- Pointwise `Json.beq` on object members. -/
def Json.beqMembers : List (String × Json) → List (String × Json) → Bool
  | [], [] => true
  | (k1, v1) :: xs, (k2, v2) :: ys => k1 == k2 && Json.beq v1 v2 && Json.beqMembers xs ys
  | _, _ => false

end

/-- Python dictionary key lookup on an association list (first match). -/
def lookupKV : List (String × Json) → String → Option Json
  | [], _ => none
  | (k1, v) :: rest, k => if k1 = k then some v else lookupKV rest k

/-- Embedding of Python `d.get(key)` (returns `none` off a dict, where Python
would raise; see the module comment). -/
def jGet : Json → String → Option Json
  | .obj kvs, k => lookupKV kvs k
  | _, _ => none

/-- Embedding of Python `key in d` for a decoded value. -/
def jHasKey (j : Json) (k : String) : Bool :=
  (jGet j k).isSome

/-- Python truthiness of a decoded value (`if x:`). -/
def jTruthy : Json → Bool
  | .null => false
  | .bool b => b
  | .int n => n != 0
  | .str s => s ≠ ""
  | .arr l => !l.isEmpty
  | .obj l => !l.isEmpty

/-- Embedding of Python `x or y` for decoded values (used as `... or {}`). -/
def pyOr (a b : Json) : Json :=
  if jTruthy a then a else b

/-! ## Python string primitives -/

/-- Characters Python's `str.strip()` removes (`str.isspace`): ASCII
whitespace, the C1/Unicode space code points. -/
def isPySpace (c : Char) : Bool :=
  c = ' ' || c = '\t' || c = '\n' || c = '\r' || c.toNat = 0x0b || c.toNat = 0x0c ||
  (0x1c ≤ c.toNat && c.toNat ≤ 0x1f) || c.toNat = 0x85 || c.toNat = 0xa0 ||
  c.toNat = 0x1680 || (0x2000 ≤ c.toNat && c.toNat ≤ 0x200a) ||
  c.toNat = 0x2028 || c.toNat = 0x2029 || c.toNat = 0x202f || c.toNat = 0x205f ||
  c.toNat = 0x3000

/-- Strip characters satisfying `p` from both ends of a character list. -/
def stripWhile (p : Char → Bool) (l : List Char) : List Char :=
  ((l.dropWhile p).reverse.dropWhile p).reverse

/-- Embedding of Python `s.strip()`. -/
def pyStrip (s : String) : String :=
  ⟨stripWhile isPySpace s.data⟩

/-- Embedding of Python `s.strip("`")` (the backtick is written `'\x60'`). -/
def pyStripBackticks (s : String) : String :=
  ⟨stripWhile (· = '\x60') s.data⟩

/-- Embedding of Python `s.lower()` on the ASCII range (identity elsewhere;
no non-ASCII character lowercases to an ASCII letter, so this agrees with
Python on the `startswith("json")` test the code performs). -/
def pyLower (s : String) : String :=
  ⟨s.data.map Char.toLower⟩

/-- Embedding of Python `s.startswith(prefix)`. -/
def pyStartsWith (s pre : String) : Bool :=
  pre.data.isPrefixOf s.data

/-- Embedding of Python `s[n:]` (slicing by code points). -/
def pyDropChars (n : Nat) (s : String) : String :=
  ⟨s.data.drop n⟩

/-- Embedding of Python `s.capitalize()` on the ASCII range: first character
upper-cased, all remaining characters lower-cased. -/
def pyCapitalize (s : String) : String :=
  match s.data with
  | [] => ""
  | c :: rest => ⟨c.toUpper :: rest.map Char.toLower⟩

/-- Modelled from the spec: "title-case it as a display label" (§4.1).  The
source has no title-casing routine (it calls `str.capitalize`); this second
definition follows the spec's words — the first letter of every
whitespace-separated word is upper-cased and all other letters lower-cased —
and is used only to compare the spec's claim against the code. -/
def titleCaseSpec (s : String) : String :=
  ⟨(s.data.foldl
      (fun (acc : List Char × Bool) c =>
        if c = ' ' then (acc.1 ++ [c], true)
        else if acc.2 then (acc.1 ++ [c.toUpper], false)
        else (acc.1 ++ [c.toLower], false))
      ([], true)).1⟩

/-! ## SHA-256 (`hashlib.sha256(... .encode("utf-8")).hexdigest()`) -/

/-- UTF-8 encoding of one scalar value, as byte values. -/
def utf8EncodeChar (c : Char) : List Nat :=
  let n := c.toNat
  if n < 0x80 then [n]
  else if n < 0x800 then [0xc0 + n / 0x40, 0x80 + n % 0x40]
  else if n < 0x10000 then
    [0xe0 + n / 0x1000, 0x80 + (n / 0x40) % 0x40, 0x80 + n % 0x40]
  else
    [0xf0 + n / 0x40000, 0x80 + (n / 0x1000) % 0x40, 0x80 + (n / 0x40) % 0x40,
     0x80 + n % 0x40]

/-- UTF-8 encoding of a string (Python `s.encode("utf-8")`). -/
def utf8Bytes (s : String) : List Nat :=
  s.data.flatMap utf8EncodeChar

/-- Truncation to a 32-bit word. -/
def w32 (x : Nat) : Nat := x % 4294967296

/-- Right rotation of a 32-bit word. -/
def rotr32 (n x : Nat) : Nat := w32 ((x >>> n) ||| (x <<< (32 - n)))

/-- SHA-256 Ch function (with 32-bit complement as subtraction from 2^32-1). -/
def shaCh (x y z : Nat) : Nat := (x &&& y) ^^^ ((4294967295 - w32 x) &&& z)

/-- SHA-256 Maj function. -/
def shaMaj (a b c : Nat) : Nat := (a &&& b) ^^^ (a &&& c) ^^^ (b &&& c)

/-- SHA-256 big sigma 0. -/
def bsig0 (a : Nat) : Nat := rotr32 2 a ^^^ rotr32 13 a ^^^ rotr32 22 a

/-- SHA-256 big sigma 1. -/
def bsig1 (a : Nat) : Nat := rotr32 6 a ^^^ rotr32 11 a ^^^ rotr32 25 a

/-- SHA-256 small sigma 0. -/
def ssig0 (a : Nat) : Nat := rotr32 7 a ^^^ rotr32 18 a ^^^ (a >>> 3)

/-- SHA-256 small sigma 1. -/
def ssig1 (a : Nat) : Nat := rotr32 17 a ^^^ rotr32 19 a ^^^ (a >>> 10)

/-- SHA-256 round constants (FIPS 180-4, in decimal). -/
def K256 : List Nat :=
  [1116352408, 1899447441, 3049323471, 3921009573, 961987163,
   1508970993, 2453635748, 2870763221, 3624381080, 310598401,
   607225278, 1426881987, 1925078388, 2162078206, 2614888103,
   3248222580, 3835390401, 4022224774, 264347078, 604807628,
   770255983, 1249150122, 1555081692, 1996064986, 2554220882,
   2821834349, 2952996808, 3210313671, 3336571891, 3584528711,
   113926993, 338241895, 666307205, 773529912, 1294757372,
   1396182291, 1695183700, 1986661051, 2177026350, 2456956037,
   2730485921, 2820302411, 3259730800, 3345764771, 3516065817,
   3600352804, 4094571909, 275423344, 430227734, 506948616,
   659060556, 883997877, 958139571, 1322822218, 1537002063,
   1747873779, 1955562222, 2024104815, 2227730452, 2361852424,
   2428436474, 2756734187, 3204031479, 3329325298]

/-- SHA-256 initial hash state (FIPS 180-4, in decimal). -/
def H256 : List Nat :=
  [1779033703, 3144134277, 1013904242,
   2773480762, 1359893119, 2600822924,
   528734635, 1541459225]

/-- Big-endian 8-byte encoding of a length-in-bits. -/
def be64 (n : Nat) : List Nat :=
  [n / 2 ^ 56 % 256, n / 2 ^ 48 % 256, n / 2 ^ 40 % 256, n / 2 ^ 32 % 256,
   n / 2 ^ 24 % 256, n / 2 ^ 16 % 256, n / 2 ^ 8 % 256, n % 256]

/-- SHA-256 message padding. -/
def padMsg (m : List Nat) : List Nat :=
  let L := m.length
  let z := (119 - L % 64) % 64
  m ++ [0x80] ++ List.replicate z 0 ++ be64 (8 * L)

/-- Split a byte list into 64-byte blocks. -/
def toBlocks (l : List Nat) : List (List Nat) :=
  if h : l = [] then [] else l.take 64 :: toBlocks (l.drop 64)
termination_by l.length
decreasing_by
  simp [List.length_drop]
  exact List.length_pos.mpr h

/-- Combine bytes into big-endian 32-bit words. -/
def toWords : List Nat → List Nat
  | a :: b :: c :: d :: rest => (((a * 256 + b) * 256 + c) * 256 + d) :: toWords rest
  | _ => []

/-- Extend 16 message-schedule words to 64. -/
def fullW (w16 : List Nat) : List Nat :=
  (List.range 48).foldl
    (fun w i =>
      w ++ [w32 (ssig1 (w.getD (i + 14) 0) + w.getD (i + 9) 0 +
                 ssig0 (w.getD (i + 1) 0) + w.getD i 0)])
    w16

/-- One SHA-256 compression round. -/
def compressStep (st : List Nat) (kw : Nat × Nat) : List Nat :=
  match st with
  | [a, b, c, d, e, f, g, h] =>
    let t1 := w32 (h + bsig1 e + shaCh e f g + kw.1 + kw.2)
    let t2 := w32 (bsig0 a + shaMaj a b c)
    [w32 (t1 + t2), a, b, c, w32 (d + t1), e, f, g]
  | other => other

/-- SHA-256 compression of one 64-byte block. -/
def compressBlock (H : List Nat) (block : List Nat) : List Nat :=
  let st := ((K256.zip (fullW (toWords block))).foldl compressStep H)
  (H.zip st).map fun p => w32 (p.1 + p.2)

/-- SHA-256 digest (eight 32-bit words) of a byte list. -/
def sha256Words (msg : List Nat) : List Nat :=
  (toBlocks (padMsg msg)).foldl compressBlock H256

/-- Lowercase hexadecimal digit. -/
def hexDigitChar (d : Nat) : Char :=
  Char.ofNat (if d < 10 then 48 + d else 87 + d)

/-- Eight-digit lowercase hex rendering of a 32-bit word. -/
def hexWord (w : Nat) : List Char :=
  [hexDigitChar (w / 16 ^ 7 % 16), hexDigitChar (w / 16 ^ 6 % 16),
   hexDigitChar (w / 16 ^ 5 % 16), hexDigitChar (w / 16 ^ 4 % 16),
   hexDigitChar (w / 16 ^ 3 % 16), hexDigitChar (w / 16 ^ 2 % 16),
   hexDigitChar (w / 16 % 16), hexDigitChar (w % 16)]

/-- Embedding of `hashlib.sha256(text.encode("utf-8")).hexdigest()`
(app.py line 568). -/
def sha256hex (s : String) : String :=
  ⟨(sha256Words (utf8Bytes s)).flatMap hexWord⟩

/-! ## Transcript Normalizer (`normalize_zendesk_ticket`, app.py 68-88) -/

/-- One comment of a Zendesk-style payload.  Absent dictionary keys take the
`dict.get` defaults `"unknown"` / `""` used by the source, so both fields are
embedded as plain strings. -/
structure ZComment where
  author_role : String
  body : String
deriving DecidableEq, Repr

/-- A Zendesk-style ticket payload (subject defaults to `""` when absent). -/
structure ZPayload where
  subject : String
  comments : List ZComment
deriving DecidableEq, Repr

/-- Embedding of `normalize_zendesk_ticket` (app.py 68-88): optional
`Subject:` block, then one `Label: body` block per comment with non-empty
stripped body, joined by blank lines.  The Python `for` loop with `append` is
embedded as a left fold. -/
def normalize_zendesk_ticket (p : ZPayload) : String :=
  let parts : List String := if p.subject ≠ "" then ["Subject: " ++ p.subject] else []
  let parts := p.comments.foldl
    (fun acc c =>
      let author_role := if pyStrip c.author_role = "" then "unknown" else pyStrip c.author_role
      let body := pyStrip c.body
      if body = "" then acc
      else acc ++ [pyCapitalize author_role ++ ": " ++ body])
    parts
  String.intercalate "\n\n" parts

/-- The comment blocks of `normalize_zendesk_ticket`'s output, written as a
`filterMap` (used to state claims about the normalizer). -/
def commentBlocks (p : ZPayload) : List String :=
  p.comments.filterMap fun c =>
    let author_role := if pyStrip c.author_role = "" then "unknown" else pyStrip c.author_role
    let body := pyStrip c.body
    if body = "" then none
    else some (pyCapitalize author_role ++ ": " ++ body)

/-! ## A model of `json.dumps` (restricted to the values above)

The serializer mirrors `json.dumps(..., ensure_ascii=False)` with the default
separators `", "` and `": "`: strings escape the quote, the backslash and all
control characters (short escapes for the usual five, `\u00XX` otherwise),
integers print in decimal, objects and arrays are comma-joined. -/

/-- Decimal digit character. -/
def digitChar (d : Nat) : Char :=
  match d with
  | 0 => '0' | 1 => '1' | 2 => '2' | 3 => '3' | 4 => '4'
  | 5 => '5' | 6 => '6' | 7 => '7' | 8 => '8' | _ => '9'

/-- Lowercase hexadecimal digit character. -/
def hexChar (d : Nat) : Char :=
  match d with
  | 0 => '0' | 1 => '1' | 2 => '2' | 3 => '3' | 4 => '4'
  | 5 => '5' | 6 => '6' | 7 => '7' | 8 => '8' | 9 => '9'
  | 10 => 'a' | 11 => 'b' | 12 => 'c' | 13 => 'd' | 14 => 'e' | _ => 'f'

/-- Decimal digits of a natural number (empty for 0). -/
def natChars (n : Nat) : List Char :=
  (Nat.digits 10 n).reverse.map digitChar

/-- Decimal rendering of an integer (Python `str(int)`). -/
def intChars (n : Int) : List Char :=
  if n < 0 then '-' :: natChars n.natAbs
  else if n = 0 then ['0']
  else natChars n.toNat

/-- JSON string escaping of one character. -/
def escapeChar (c : Char) : List Char :=
  if c = '"' then ['\\', '"']
  else if c = '\\' then ['\\', '\\']
  else if c = '\n' then ['\\', 'n']
  else if c = '\t' then ['\\', 't']
  else if c = '\r' then ['\\', 'r']
  else if c = Char.ofNat 8 then ['\\', 'b']
  else if c = Char.ofNat 12 then ['\\', 'f']
  else if c.toNat < 0x20 then
    ['\\', 'u', '0', '0', hexChar (c.toNat / 16), hexChar (c.toNat % 16)]
  else [c]

/-- JSON string escaping of a character list. -/
def escapeStr (l : List Char) : List Char :=
  l.flatMap escapeChar

mutual

/-- Serialize one value. -/
def dumpsVal : Json → List Char
  | .null => ("null" : String).data
  | .bool true => ("true" : String).data
  | .bool false => ("false" : String).data
  | .int n => intChars n
  | .str s => '"' :: (escapeStr s.data ++ ['"'])
  | .arr es => '[' :: (dumpsElems es ++ [']'])
  | .obj kvs => '\x7b' :: (dumpsMembers kvs ++ ['\x7d'])

/-- Serialize array elements (comma-joined). -/
def dumpsElems : List Json → List Char
  | [] => []
  | e :: es => dumpsVal e ++ dumpsElemsTail es

/-- Serialize array elements after the first. -/
def dumpsElemsTail : List Json → List Char
  | [] => []
  | e :: es => ',' :: ' ' :: (dumpsVal e ++ dumpsElemsTail es)

/-- Serialize object members (comma-joined). -/
def dumpsMembers : List (String × Json) → List Char
  | [] => []
  | (k, v) :: kvs => ('"' :: (escapeStr k.data ++ '"' :: ':' :: ' ' :: dumpsVal v)) ++ dumpsMembersTail kvs

/-- Serialize object members after the first. -/
def dumpsMembersTail : List (String × Json) → List Char
  | [] => []
  | (k, v) :: kvs => ',' :: ' ' :: (('"' :: (escapeStr k.data ++ '"' :: ':' :: ' ' :: dumpsVal v)) ++ dumpsMembersTail kvs)

end

/-- Embedding of `json.dumps` on the modelled values. -/
def json_dumps (j : Json) : String :=
  ⟨dumpsVal j⟩

/-! ## A model of `json.loads` (restricted to the values above) -/

/-- JSON structural whitespace (the characters `json.loads` skips). -/
def isJsonWs (c : Char) : Bool :=
  c = ' ' || c = '\t' || c = '\n' || c = '\r'

/-- Skip JSON whitespace. -/
def skipWs (l : List Char) : List Char :=
  l.dropWhile isJsonWs

/-- Value of a short escape code. -/
def escCode (e : Char) : Option Char :=
  if e = '"' then some '"'
  else if e = '\\' then some '\\'
  else if e = '/' then some '/'
  else if e = 'b' then some (Char.ofNat 8)
  else if e = 'f' then some (Char.ofNat 12)
  else if e = 'n' then some '\n'
  else if e = 'r' then some '\r'
  else if e = 't' then some '\t'
  else none

/-- Value of one hexadecimal digit. -/
def hexVal (c : Char) : Option Nat :=
  if '0' ≤ c ∧ c ≤ '9' then some (c.toNat - 48)
  else if 'a' ≤ c ∧ c ≤ 'f' then some (c.toNat - 87)
  else if 'A' ≤ c ∧ c ≤ 'F' then some (c.toNat - 55)
  else none

/-- Parse the body of a JSON string literal (after the opening quote) up to
its closing quote.  Unescaped control characters are rejected (json's strict
mode); `\uXXXX` escapes of surrogate code points, which Lean strings cannot
hold, are outside the model. -/
def parseStringBody : List Char → Option (List Char × List Char)
  | [] => none
  | c :: rest =>
    if c = '"' then some ([], rest)
    else if c = '\\' then
      match rest with
      | [] => none
      | e :: rest2 =>
        if e = 'u' then
          match rest2 with
          | a :: b :: c2 :: d :: rest3 =>
            (match hexVal a, hexVal b, hexVal c2, hexVal d with
             | some ha, some hb, some hc, some hd =>
               let n := ((ha * 16 + hb) * 16 + hc) * 16 + hd
               if n < 0xd800 || 0xe000 ≤ n then
                 (parseStringBody rest3).map fun pr => (Char.ofNat n :: pr.1, pr.2)
               else none
             | _, _, _, _ => none)
          | _ => none
        else
          (escCode e).bind fun ch =>
            (parseStringBody rest2).map fun pr => (ch :: pr.1, pr.2)
    else if c.toNat < 0x20 then none
    else (parseStringBody rest).map fun pr => (c :: pr.1, pr.2)

/-- Consume a maximal run of decimal digits, accumulating their value. -/
def parseDigits (acc : Nat) : List Char → Nat × List Char
  | c :: rest =>
    if c.isDigit then parseDigits (10 * acc + (c.toNat - 48)) rest else (acc, c :: rest)
  | [] => (acc, [])

/-- True when the upcoming characters would extend a numeric literal into a
float or exponent form (outside the model). -/
def badNumTail : List Char → Bool
  | [] => false
  | c :: _ => c = '.' || c = 'e' || c = 'E'

/-- True when the upcoming characters would continue a preceding numeric
literal (a digit, or a fraction/exponent marker); used to state the
round-trip lemmas. -/
def extendsNum : List Char → Bool
  | [] => false
  | c :: _ => c.isDigit || c = '.' || c = 'e' || c = 'E'

/-- Parse an unsigned JSON integer literal. -/
def parseNumberNat : List Char → Option (Nat × List Char)
  | c :: rest =>
    if c = '0' then
      if badNumTail rest then none else some (0, rest)
    else if c.isDigit then
      let pr := parseDigits (c.toNat - 48) rest
      if badNumTail pr.2 then none else some pr
    else none
  | [] => none

/-- Parse a JSON integer literal with optional sign. -/
def parseNumber : List Char → Option (Int × List Char)
  | [] => none
  | c :: rest =>
    if c = '-' then (parseNumberNat rest).map fun pr => (-(pr.1 : Int), pr.2)
    else (parseNumberNat (c :: rest)).map fun pr => ((pr.1 : Int), pr.2)

mutual

/-- Parse one JSON value (fuelled recursive descent; the fuel only bounds
recursion depth and is chosen generously at the top level). -/
def parseVal : Nat → List Char → Option (Json × List Char)
  | 0, _ => none
  | fuel + 1, l =>
    if List.isPrefixOf ['n', 'u', 'l', 'l'] l then some (.null, l.drop 4)
    else if List.isPrefixOf ['t', 'r', 'u', 'e'] l then some (.bool true, l.drop 4)
    else if List.isPrefixOf ['f', 'a', 'l', 's', 'e'] l then some (.bool false, l.drop 5)
    else
      match l with
      | [] => none
      | c :: rest =>
        if c = '"' then (parseStringBody rest).map fun pr => (Json.str ⟨pr.1⟩, pr.2)
        else if c = '[' then parseElemsStart fuel (skipWs rest)
        else if c = '\x7b' then parseMembersStart fuel (skipWs rest)
        else (parseNumber (c :: rest)).map fun pr => (Json.int pr.1, pr.2)

/-- Parse the elements of an array (position: just after `[`, whitespace
skipped). -/
def parseElemsStart : Nat → List Char → Option (Json × List Char)
  | 0, _ => none
  | fuel + 1, l =>
    match l with
    | [] => none
    | c :: rest =>
      if c = ']' then some (.arr [], rest)
      else
        (parseVal fuel (c :: rest)).bind fun pr =>
          (parseElemsRest fuel (skipWs pr.2)).map fun pr2 => (Json.arr (pr.1 :: pr2.1), pr2.2)

/-- Parse the continuation of an array (position: after an element,
whitespace skipped; expects `,` or `]`). -/
def parseElemsRest : Nat → List Char → Option (List Json × List Char)
  | 0, _ => none
  | fuel + 1, l =>
    match l with
    | [] => none
    | c :: rest =>
      if c = ']' then some ([], rest)
      else if c = ',' then
        (parseVal fuel (skipWs rest)).bind fun pr =>
          (parseElemsRest fuel (skipWs pr.2)).map fun pr2 => (pr.1 :: pr2.1, pr2.2)
      else none

/-- Parse the members of an object (position: just after the opening brace,
whitespace skipped). -/
def parseMembersStart : Nat → List Char → Option (Json × List Char)
  | 0, _ => none
  | fuel + 1, l =>
    match l with
    | [] => none
    | c :: rest =>
      if c = '\x7d' then some (.obj [], rest)
      else if c = '"' then
        (parseStringBody rest).bind fun pk =>
          (match skipWs pk.2 with
           | ':' :: r2 =>
             (parseVal fuel (skipWs r2)).bind fun pv =>
               (parseMembersRest fuel (skipWs pv.2)).map fun pm =>
                 (Json.obj ((⟨pk.1⟩, pv.1) :: pm.1), pm.2)
           | _ => none)
      else none

/-- Parse the continuation of an object (position: after a member value,
whitespace skipped; expects `,` or the closing brace). -/
def parseMembersRest : Nat → List Char → Option (List (String × Json) × List Char)
  | 0, _ => none
  | fuel + 1, l =>
    match l with
    | [] => none
    | c :: rest =>
      if c = '\x7d' then some ([], rest)
      else if c = ',' then
        (match skipWs rest with
         | '"' :: r1 =>
           (parseStringBody r1).bind fun pk =>
             (match skipWs pk.2 with
              | ':' :: r2 =>
                (parseVal fuel (skipWs r2)).bind fun pv =>
                  (parseMembersRest fuel (skipWs pv.2)).map fun pm =>
                    ((⟨pk.1⟩, pv.1) :: pm.1, pm.2)
              | _ => none)
         | _ => none)
      else none

end

/-- Embedding of `json.loads` on the modelled values: skip leading
whitespace, parse one value, require only whitespace after it.  The fuel
`2 * length + 2` exceeds the recursion depth reachable on any input of this
length (each unit of fuel is consumed only after at least one character of
input, except for the at-most-one extra step per `[`/brace). -/
def json_loads (s : String) : Option Json :=
  match parseVal (2 * s.length + 2) (skipWs s.data) with
  | some pr => if (skipWs pr.2).isEmpty then some pr.1 else none
  | none => none

/-! ## Response Decoder (the try/except block of `evaluate_ticket`, app.py 214-224) -/

/-- The fence-stripping steps of `evaluate_ticket`: strip whitespace; if the
text starts with three backticks, strip all backticks from both ends and, if
the result then starts (case-insensitively) with `json`, drop those four
characters and re-strip. -/
def stripFences (raw_content : String) : String :=
  let cleaned := pyStrip raw_content
  if pyStartsWith cleaned "```" then
    let c := pyStripBackticks cleaned
    if pyStartsWith (pyLower c) "json" then pyStrip (pyDropChars 4 c) else c
  else cleaned

/-- Embedding of the whole strip-and-parse block: on a parse failure the
`except` branch returns the Python dict
`{"error": ..., "raw_output": raw_content}` carrying the original
(pre-stripping) text; the error message itself is summarised, as Python's
exception text is not modelled. -/
def parse_model_output (raw_content : String) : Json :=
  match json_loads (stripFences raw_content) with
  | some data => data
  | none =>
    Json.obj [("error", Json.str "Failed to parse model output as JSON"),
              ("raw_output", Json.str raw_content)]

/-- Embedding of `evaluate_ticket` (app.py 191-224) as a function of the
gateway outcome.  The outer `Option` is the remote call: `none` means the
call raised a transport failure, which the code does not catch (the
`try` begins only after the call), so no result is produced; `some content`
is a completed call whose message content is `content` (`none` for a `None`
content field, turned into `""` by `raw_content = ... or ""`). -/
def evaluate_ticket (gatewayContent : Option (Option String)) : Option Json :=
  match gatewayContent with
  | none => none
  | some content => some (parse_model_output (content.getD ""))

/-! ## The evaluation schema (§6 of the spec; the shape `build_qa_prompt` requests) -/

/-- One criterion entry: `{score, justification}`. -/
structure CriterionScore where
  score : Int
  justification : String
deriving DecidableEq, Repr

/-- The overall rating entry: `{score, justification}`. -/
structure OverallRating where
  score : Int
  justification : String
deriving DecidableEq, Repr

/-- The root-cause entry: `{label, explanation, kb_article_suggestion}`. -/
structure RootCauseInfo where
  label : String
  explanation : String
  kb_article_suggestion : String
deriving DecidableEq, Repr

/-- A well-formed evaluation-schema record. -/
structure EvalRecord where
  technical_accuracy : CriterionScore
  clarity_and_tone : CriterionScore
  diagnostic_depth : CriterionScore
  ownership_and_follow_through : CriterionScore
  escalation_judgment : CriterionScore
  overall_rating : OverallRating
  root_cause : RootCauseInfo
  coaching_summary : String
deriving DecidableEq, Repr

/-- The `Json` dictionary of one criterion entry. -/
def CriterionScore.toJson (c : CriterionScore) : Json :=
  Json.obj [("score", Json.int c.score), ("justification", Json.str c.justification)]

/-- The `Json` dictionary a well-formed evaluation-schema record decodes to. -/
def EvalRecord.toJson (r : EvalRecord) : Json :=
  Json.obj
    [("criteria", Json.obj
        [("technical_accuracy", r.technical_accuracy.toJson),
         ("clarity_and_tone", r.clarity_and_tone.toJson),
         ("diagnostic_depth", r.diagnostic_depth.toJson),
         ("ownership_and_follow_through", r.ownership_and_follow_through.toJson),
         ("escalation_judgment", r.escalation_judgment.toJson)]),
     ("overall_rating", Json.obj
        [("score", Json.int r.overall_rating.score),
         ("justification", Json.str r.overall_rating.justification)]),
     ("root_cause", Json.obj
        [("label", Json.str r.root_cause.label),
         ("explanation", Json.str r.root_cause.explanation),
         ("kb_article_suggestion", Json.str r.root_cause.kb_article_suggestion)]),
     ("coaching_summary", Json.str r.coaching_summary)]

/-- Wrapping a serialized record in a ```` ```json ```` code fence (the input
shape of the decoder round-trip property). -/
def wrapJsonFence (s : String) : String :=
  "```json\n" ++ s ++ "\n```"

/-! ## Session state and the coaching history store (app.py 457-479, 548-578) -/

/-- One entry of `st.session_state["coaching_history"]` (the dict built at
app.py 571-578).  `overall_score`, `root_cause` and `coaching_summary` hold
whatever decoded values the handler extracted. -/
structure CoachingRecord where
  label : String
  overall_score : Json
  root_cause : Json
  coaching_summary : Json
deriving Repr

/-- The slices of `st.session_state` the evaluation pipeline touches. -/
structure SessionState where
  last_result : Option Json
  last_ticket_text : String
  kb_draft : String
  team_insights : String
  coaching_history : List CoachingRecord
  coaching_keys : List String
  current_ticket_label : String
deriving Repr

/-- The session state created by the initialisation block (app.py 457-479). -/
def initial_session : SessionState :=
  { last_result := none
    last_ticket_text := ""
    kb_draft := ""
    team_insights := ""
    coaching_history := []
    coaching_keys := []
    current_ticket_label := "Assignment example – SecureVault / Okta / SOC2" }

/-- Embedding of the record/dedup block of the `run_eval` handler (app.py
560-578): when the decoded result has no `"error"` key and a truthy
`coaching_summary`, and the SHA-256 key of the transcript is unseen, append
the key and a derived `CoachingRecord`; otherwise leave the store unchanged. -/
def recordStep (ticket_text : String) (result : Json) (s : SessionState) : SessionState :=
  if jHasKey result "error" then s
  else
    let coaching := (jGet result "coaching_summary").getD (Json.str "")
    let root := pyOr ((jGet result "root_cause").getD (Json.obj [])) (Json.obj [])
    let overall := pyOr ((jGet result "overall_rating").getD (Json.obj [])) (Json.obj [])
    let root_label := (jGet root "label").getD (Json.str "unknown")
    let overall_score := (jGet overall "score").getD (Json.str "N/A")
    if jTruthy coaching then
      let ticket_key := sha256hex ticket_text
      if ticket_key ∈ s.coaching_keys then s
      else
        { s with
          coaching_keys := s.coaching_keys ++ [ticket_key]
          coaching_history := s.coaching_history ++
            [{ label := s.current_ticket_label
               overall_score := overall_score
               root_cause := root_label
               coaching_summary := coaching }] }
    else s

/-- A sequence of record operations applied in order. -/
def recordSeq (ops : List (String × Json)) (s : SessionState) : SessionState :=
  ops.foldl (fun st op => recordStep op.1 op.2 st) s

/-- Embedding of the whole `run_eval` handler body (app.py 548-578): a blank
transcript only warns; a transport failure propagates before any state
write; otherwise `last_result`/`last_ticket_text` are set, the KB draft and
team insights are cleared, and the record/dedup block runs. -/
def run_eval_step (gatewayContent : Option (Option String)) (ticket_text : String)
    (s : SessionState) : SessionState :=
  if pyStrip ticket_text = "" then s
  else
    match evaluate_ticket gatewayContent with
    | none => s
    | some result =>
      let s1 := { s with
        last_result := some result
        last_ticket_text := ticket_text
        kb_draft := ""
        team_insights := "" }
      recordStep ticket_text result s1

/-! ## KB-generation gating (Step 2, app.py 644-660) -/

/-- Embedding of the condition under which Step 2 offers (and can run) the
KB Draft Generator: a truthy current result without an `"error"` key whose
`kb_article_suggestion` is truthy and whose root-cause label is
`content_gap` or `mixed`.  `generate_kb_article` is called only inside this
branch, so the predicate is the caller-level gate on invoking it. -/
def kb_generation_enabled (last_result : Option Json) : Bool :=
  match last_result with
  | none => false
  | some result =>
    jTruthy result && !(jHasKey result "error") &&
    (let root := pyOr ((jGet result "root_cause").getD (Json.obj [])) (Json.obj [])
     let root_label := (jGet root "label").getD (Json.str "")
     let kb_suggestion := (jGet root "kb_article_suggestion").getD (Json.str "")
     jTruthy kb_suggestion &&
       (Json.beq root_label (Json.str "content_gap") || Json.beq root_label (Json.str "mixed")))

/-! ## Root-cause aggregation (app.py 710 and 853-858) -/

/-- Embedding of `Counter(item.get("root_cause", "unknown") for item in
history)` looked up at `label` (every stored record carries the key, so the
`.get` default never fires on stored histories). -/
def root_counts (history : List CoachingRecord) (label : Json) : Nat :=
  (history.map fun item => item.root_cause).countP fun x => Json.beq x label

/-- Modelled from the spec: `countsByRootCause() -> mapping from root-cause
label to count` "computed by tallying the `root_cause` field of every stored
record (unrecognized/absent labels count under an `"unknown"` bucket)"
(§4.7).  The source has no unknown-bucket folding; this second definition
follows the spec's words and is used only to compare the claim against the
code. -/
def countsByRootCauseSpec (history : List CoachingRecord) (label : String) : Nat :=
  if label = "unknown" then
    (history.filter fun r =>
      !(Json.beq r.root_cause (Json.str "agent_performance") ||
        Json.beq r.root_cause (Json.str "content_gap") ||
        Json.beq r.root_cause (Json.str "mixed"))).length
  else
    (history.filter fun r => Json.beq r.root_cause (Json.str label)).length

/-! ## Parser fuel measure (used to state the round-trip lemmas) -/

mutual

/-- Recursion-depth fuel needed to parse a serialized value. -/
def sizeJ : Json → Nat
  | .arr es => sizeElems es + 2
  | .obj kvs => sizeMembers kvs + 2
  | _ => 1

/-- Fuel for array element lists. -/
def sizeElems : List Json → Nat
  | [] => 1
  | e :: es => sizeJ e + sizeElems es + 1

/-- Fuel for object member lists. -/
def sizeMembers : List (String × Json) → Nat
  | [] => 1
  | (_, v) :: kvs => sizeJ v + sizeMembers kvs + 1

end

/-! ## Concrete example data (used by witnesses and counterexamples) -/

/-- A well-formed record with the given root-cause fields and summary. -/
def mkSample (label suggestion coaching : String) : EvalRecord :=
  { technical_accuracy := ⟨4, "accurate"⟩
    clarity_and_tone := ⟨3, "polite"⟩
    diagnostic_depth := ⟨2, "shallow"⟩
    ownership_and_follow_through := ⟨3, "ok"⟩
    escalation_judgment := ⟨4, "fine"⟩
    overall_rating := ⟨3, "mixed bag"⟩
    root_cause := ⟨label, "because", suggestion⟩
    coaching_summary := coaching }

/-- Sample: agent-performance result (empty suggestion). -/
def sampleAgentPerf : EvalRecord := mkSample "agent_performance" "" "• check history first"

/-- Sample: content-gap result with a suggestion. -/
def sampleContentGap : EvalRecord := mkSample "content_gap" "Document CSV limits" "• cite docs"

/-- Sample: well-formed result with an empty coaching summary. -/
def sampleEmptyCoaching : EvalRecord := mkSample "mixed" "Write a runbook" ""

/-- Sample: a stored record carrying an unrecognized root-cause label. -/
def bananaRecord : CoachingRecord :=
  { label := "Ticket A", overall_score := Json.int 3,
    root_cause := Json.str "banana", coaching_summary := Json.str "• c" }

/-- Sample four-record history with recognized labels (the aggregate-counts
example of §8). -/
def fourHistory : List CoachingRecord :=
  [{ label := "T1", overall_score := Json.int 2, root_cause := Json.str "agent_performance",
     coaching_summary := Json.str "• a" },
   { label := "T2", overall_score := Json.int 3, root_cause := Json.str "content_gap",
     coaching_summary := Json.str "• b" },
   { label := "T3", overall_score := Json.int 3, root_cause := Json.str "content_gap",
     coaching_summary := Json.str "• c" },
   { label := "T4", overall_score := Json.int 4, root_cause := Json.str "mixed",
     coaching_summary := Json.str "• d" }]

/-! # Theorems -/

/-! ## Equality of decoded values -/

mutual

/-- Boolean equality `Json.beq` coincides with propositional equality. -/
theorem Json.beq_iff : ∀ a b : Json, Json.beq a b = true ↔ a = b
  | .null, b => by cases b <;> simp [Json.beq]
  | .bool a, b => by cases b <;> simp [Json.beq]
  | .int a, b => by cases b <;> simp [Json.beq]
  | .str a, b => by cases b <;> simp [Json.beq]
  | .arr a, b => by
      cases b <;> simp [Json.beq]
      rw [Json.beqElems_iff]
  | .obj a, b => by
      cases b <;> simp [Json.beq]
      rw [Json.beqMembers_iff]

/-- Boolean equality `Json.beqElems` coincides with equality of element lists. -/
theorem Json.beqElems_iff : ∀ xs ys : List Json, Json.beqElems xs ys = true ↔ xs = ys
  | [], ys => by cases ys <;> simp [Json.beqElems]
  | x :: xs, ys => by
      cases ys <;> simp [Json.beqElems]
      rw [Json.beq_iff, Json.beqElems_iff]

/-- Boolean equality `Json.beqMembers` coincides with equality of member lists. -/
theorem Json.beqMembers_iff : ∀ xs ys : List (String × Json), Json.beqMembers xs ys = true ↔ xs = ys
  | [], ys => by cases ys <;> simp [Json.beqMembers]
  | (k1, v1) :: xs, ys => by
      cases ys with
      | nil => simp [Json.beqMembers]
      | cons h t =>
        obtain ⟨k2, v2⟩ := h
        simp [Json.beqMembers]
        rw [Json.beq_iff, Json.beqMembers_iff]

end

/-! ## The Transcript Normalizer (claims C7, C8) -/

/-- The normalizer's fold accumulates exactly the `filterMap` of its body. -/
theorem normalize_fold_eq_filterMap (cs : List ZComment) (acc : List String) :
    cs.foldl
      (fun acc c =>
        let author_role := if pyStrip c.author_role = "" then "unknown" else pyStrip c.author_role
        let body := pyStrip c.body
        if body = "" then acc
        else acc ++ [pyCapitalize author_role ++ ": " ++ body]) acc
    = acc ++ cs.filterMap (fun c =>
        let author_role := if pyStrip c.author_role = "" then "unknown" else pyStrip c.author_role
        let body := pyStrip c.body
        if body = "" then none
        else some (pyCapitalize author_role ++ ": " ++ body)) := by
  induction cs generalizing acc with
  | nil => simp
  | cons c cs ih =>
    simp only [List.foldl_cons, List.filterMap_cons]
    by_cases h : pyStrip c.body = ""
    · simp [h, ih]
    · simp [h, ih]

/-- C7 (corrected).  The Transcript Normalizer emits the block
`"Subject: <subject>"` as the first block if and only if the subject is
non-empty as a raw string (Python truthiness, `if subject:`) — not
"non-empty after trimming": the subject is never trimmed, so a
whitespace-only subject also produces a Subject block. -/
theorem C7_subject_block_iff (p : ZPayload) :
    normalize_zendesk_ticket p =
      String.intercalate "\n\n"
        ((if p.subject = "" then [] else ["Subject: " ++ p.subject]) ++ commentBlocks p) := by
  unfold normalize_zendesk_ticket commentBlocks
  dsimp only
  rw [normalize_fold_eq_filterMap]
  by_cases h : p.subject = "" <;> simp [h]

/-- C7 counterexample.  On the payload with whitespace-only subject `" "`
and no comments, the claim as stated predicts no Subject block (so output
`""`); the code emits `"Subject:  "`. -/
theorem C7_counterexample :
    normalize_zendesk_ticket ⟨" ", []⟩ = "Subject:  " ∧
    pyStrip " " = "" ∧
    normalize_zendesk_ticket ⟨" ", []⟩ ≠ "" := by
  refine ⟨rfl, rfl, ?_⟩
  decide

/-- C8 (corrected).  The Normalizer skips comments whose trimmed body is
empty; each remaining comment emits `"<Label>: <body>"` with the body
trimmed and the Label equal to the *capitalized* (first character
upper-cased, all others lower-cased — Python `str.capitalize`, not
title-case) trimmed `author_role`, with the literal `"unknown"` substituted
before capitalization when trimming the role yields the empty string; blocks
are joined by blank lines; the empty payload yields the empty string. -/
theorem C8_comment_blocks (p : ZPayload) :
    (normalize_zendesk_ticket p =
      String.intercalate "\n\n"
        ((if p.subject = "" then [] else ["Subject: " ++ p.subject]) ++
          (p.comments.filter fun c => pyStrip c.body != "").map fun c =>
            pyCapitalize (if pyStrip c.author_role = "" then "unknown" else pyStrip c.author_role)
              ++ ": " ++ pyStrip c.body)) ∧
    normalize_zendesk_ticket ⟨"", []⟩ = "" := by
  constructor
  · unfold normalize_zendesk_ticket
    dsimp only
    rw [normalize_fold_eq_filterMap]
    have hfm : ∀ cs : List ZComment,
        cs.filterMap (fun c =>
          let author_role := if pyStrip c.author_role = "" then "unknown" else pyStrip c.author_role
          let body := pyStrip c.body
          if body = "" then none
          else some (pyCapitalize author_role ++ ": " ++ body)) =
        (cs.filter fun c => pyStrip c.body != "").map fun c =>
          pyCapitalize (if pyStrip c.author_role = "" then "unknown" else pyStrip c.author_role)
            ++ ": " ++ pyStrip c.body := by
      intro cs
      induction cs with
      | nil => rfl
      | cons c cs ih =>
        by_cases h : pyStrip c.body = "" <;>
          simp [List.filterMap_cons, List.filter_cons, h, ih]
    rw [hfm]
    by_cases h : p.subject = "" <;> simp [h]
  · rfl

/-- C8 counterexample.  For a comment with role `"support agent"`, the code
produces the label `"Support agent"` (capitalize), while the claim's
title-casing would produce `"Support Agent"`. -/
theorem C8_counterexample :
    normalize_zendesk_ticket ⟨"", [⟨"support agent", "hi"⟩]⟩ = "Support agent: hi" ∧
    titleCaseSpec (pyStrip "support agent") ++ ": " ++ pyStrip "hi" = "Support Agent: hi" ∧
    normalize_zendesk_ticket ⟨"", [⟨"support agent", "hi"⟩]⟩ ≠
      titleCaseSpec (pyStrip "support agent") ++ ": " ++ pyStrip "hi" := by
  refine ⟨rfl, rfl, ?_⟩
  decide

/-! ## Root-cause aggregation (claim C4) -/

/-- C4 (amended).  The aggregation counts, for each label value, exactly the
stored records whose `root_cause` field equals that value (`Json.beq`
coincides with equality); a record whose `root_cause` is an unrecognized
label is counted under that label itself, not under an `"unknown"` bucket.
On the §8 example `[agent_performance, content_gap, content_gap, mixed]` the
counts are 1, 2, 1 (and 0 for `"unknown"`). -/
theorem C4_root_cause_counts :
    (∀ (history : List CoachingRecord) (label : Json),
        root_counts history label =
          (history.filter fun r => Json.beq r.root_cause label).length) ∧
    (∀ a b : Json, Json.beq a b = true ↔ a = b) ∧
    root_counts fourHistory (Json.str "agent_performance") = 1 ∧
    root_counts fourHistory (Json.str "content_gap") = 2 ∧
    root_counts fourHistory (Json.str "mixed") = 1 ∧
    root_counts fourHistory (Json.str "unknown") = 0 := by
  refine ⟨?_, Json.beq_iff, rfl, rfl, rfl, rfl⟩
  intro history label
  unfold root_counts
  rw [List.countP_map, List.countP_eq_length_filter]
  rfl

/-- C4 counterexample.  A stored record whose `root_cause` is the
unrecognized label `"banana"` is not counted under `"unknown"` by the code
(count 0), while the claim's unknown-bucket tallying counts it there
(count 1). -/
theorem C4_counterexample :
    root_counts [bananaRecord] (Json.str "unknown") = 0 ∧
    countsByRootCauseSpec [bananaRecord] "unknown" = 1 ∧
    root_counts [bananaRecord] (Json.str "unknown") ≠
      countsByRootCauseSpec [bananaRecord] "unknown" := by
  exact ⟨rfl, rfl, by decide⟩

/-! ## Transport failure leaves state unchanged (claim C6) -/

/-- C6 (confirmed).  The remote call sits outside `evaluate_ticket`'s
`try` block, so a transport failure produces no result at all, and the
`run_eval` handler performs each of its session-state writes only after the
call returns: on a transport failure the whole session state — in
particular `coaching_history` and `coaching_keys` — is left unchanged. -/
theorem C6_transport_failure_preserves_state :
    evaluate_ticket none = none ∧
    ∀ (ticket_text : String) (s : SessionState),
      run_eval_step none ticket_text s = s ∧
      (run_eval_step none ticket_text s).coaching_history = s.coaching_history ∧
      (run_eval_step none ticket_text s).coaching_keys = s.coaching_keys := by
  refine ⟨rfl, fun t s => ?_⟩
  have h : run_eval_step none t s = s := by
    unfold run_eval_step
    by_cases ht : pyStrip t = "" <;> simp [ht, evaluate_ticket]
  exact ⟨h, by rw [h], by rw [h]⟩

/-! ## The Response Decoder on failures (claims C2, C10) -/

/-- C2 (amended).  When the stripped completion text is not syntactically
valid JSON, the decode step returns — it never raises — the failure dict
whose `raw_output` field is the original, unmodified, pre-stripping input;
when the stripped text is valid JSON the parsed value itself is returned,
whatever its shape, so wrong-shape or wrong-field-type output is *not*
turned into a DecodeFailure. -/
theorem C2_parse_failure_returns_raw (raw_content : String) :
    (json_loads (stripFences raw_content) = none →
      parse_model_output raw_content =
        Json.obj [("error", Json.str "Failed to parse model output as JSON"),
                  ("raw_output", Json.str raw_content)]) ∧
    (∀ v, json_loads (stripFences raw_content) = some v →
      parse_model_output raw_content = v) := by
  constructor
  · intro h
    unfold parse_model_output
    rw [h]
  · intro v h
    unfold parse_model_output
    rw [h]

/-- C2 witness: a non-JSON completion yields the failure dict carrying the
raw text; a JSON array completion is returned as the parsed array. -/
theorem C2_witness :
    parse_model_output "not json" =
      Json.obj [("error", Json.str "Failed to parse model output as JSON"),
                ("raw_output", Json.str "not json")] ∧
    parse_model_output "[1, 2]" = Json.arr [Json.int 1, Json.int 2] :=
  ⟨(C2_parse_failure_returns_raw "not json").1 rfl,
   (C2_parse_failure_returns_raw "[1, 2]").2 _ rfl⟩

/-- C2 counterexample.  The completion `"[1, 2]"` does not parse as a record
of the evaluation schema (it is a JSON array), yet the decode step returns
the parsed array — a value with neither an `"error"` nor a `"raw_output"`
key — not a DecodeFailure, contradicting the claim as stated. -/
theorem C2_counterexample :
    parse_model_output "[1, 2]" = Json.arr [Json.int 1, Json.int 2] ∧
    jHasKey (parse_model_output "[1, 2]") "error" = false ∧
    jHasKey (parse_model_output "[1, 2]") "raw_output" = false :=
  ⟨rfl, rfl, rfl⟩

/-- C10 (confirmed).  An empty or absent (`None`) completion content is
mapped to `""` by `... or ""`; the empty string strips to itself, is not
fenced, and fails JSON parsing, so the decode step returns the failure dict
whose `raw_output` field is the empty string. -/
theorem C10_empty_completion (content : Option String)
    (h : content = none ∨ content = some "") :
    evaluate_ticket (some content) =
      some (Json.obj [("error", Json.str "Failed to parse model output as JSON"),
                      ("raw_output", Json.str "")]) := by
  rcases h with rfl | rfl <;> rfl

/-- C10 witness at `content = none`. -/
theorem C10_witness :
    evaluate_ticket (some (none : Option String)) =
      some (Json.obj [("error", Json.str "Failed to parse model output as JSON"),
                      ("raw_output", Json.str "")]) :=
  C10_empty_completion none (Or.inl rfl)

/-! ## The coaching history store (claims C1, C9) -/

/-- Field lookups on a well-formed record's dictionary. -/
theorem jGet_toJson_coaching (r : EvalRecord) :
    jGet r.toJson "coaching_summary" = some (Json.str r.coaching_summary) := by
  simp [EvalRecord.toJson, jGet, lookupKV]

/-- The `root_cause` entry of a well-formed record's dictionary. -/
theorem jGet_toJson_root (r : EvalRecord) :
    jGet r.toJson "root_cause" =
      some (Json.obj
        [("label", Json.str r.root_cause.label),
         ("explanation", Json.str r.root_cause.explanation),
         ("kb_article_suggestion", Json.str r.root_cause.kb_article_suggestion)]) := by
  simp [EvalRecord.toJson, jGet, lookupKV]

/-- The `overall_rating` entry of a well-formed record's dictionary. -/
theorem jGet_toJson_overall (r : EvalRecord) :
    jGet r.toJson "overall_rating" =
      some (Json.obj
        [("score", Json.int r.overall_rating.score),
         ("justification", Json.str r.overall_rating.justification)]) := by
  simp [EvalRecord.toJson, jGet, lookupKV]

/-- A well-formed record's dictionary has no `"error"` key. -/
theorem jHasKey_toJson_error (r : EvalRecord) :
    jHasKey r.toJson "error" = false := by
  simp [EvalRecord.toJson, jHasKey, jGet, lookupKV]

/-- Full characterization of the record/dedup block on a well-formed decoded
record: nothing happens on an empty coaching summary or a seen hash,
otherwise the key and a derived record are appended. -/
theorem recordStep_wellformed (t : String) (r : EvalRecord) (s : SessionState) :
    recordStep t r.toJson s =
      if r.coaching_summary = "" then s
      else if sha256hex t ∈ s.coaching_keys then s
      else { s with
        coaching_keys := s.coaching_keys ++ [sha256hex t]
        coaching_history := s.coaching_history ++
          [{ label := s.current_ticket_label
             overall_score := Json.int r.overall_rating.score
             root_cause := Json.str r.root_cause.label
             coaching_summary := Json.str r.coaching_summary }] } := by
  by_cases hc : r.coaching_summary = ""
  · unfold recordStep
    simp only [jHasKey_toJson_error, jGet_toJson_coaching, jGet_toJson_root, jGet_toJson_overall]
    simp [jGet, lookupKV, pyOr, jTruthy, hc]
  · by_cases hk : sha256hex t ∈ s.coaching_keys
    · unfold recordStep
      simp only [jHasKey_toJson_error, jGet_toJson_coaching, jGet_toJson_root, jGet_toJson_overall]
      simp [jGet, lookupKV, pyOr, jTruthy, hc, hk]
    · unfold recordStep
      simp only [jHasKey_toJson_error, jGet_toJson_coaching, jGet_toJson_root, jGet_toJson_overall]
      simp [jGet, lookupKV, pyOr, jTruthy, hc, hk]

/-- On any decoded result whatsoever, the record/dedup block either leaves
the store unchanged or appends the unseen hash together with one record
whose coaching summary passed the truthiness guard. -/
theorem recordStep_cases (t : String) (j : Json) (s : SessionState) :
    recordStep t j s = s ∨
    (sha256hex t ∉ s.coaching_keys ∧ ∃ rec : CoachingRecord,
      jTruthy rec.coaching_summary = true ∧
      (recordStep t j s).coaching_keys = s.coaching_keys ++ [sha256hex t] ∧
      (recordStep t j s).coaching_history = s.coaching_history ++ [rec]) := by
  unfold recordStep
  split
  · exact Or.inl rfl
  · dsimp only
    split
    · rename_i htruthy
      split
      · exact Or.inl rfl
      · rename_i hmem
        exact Or.inr ⟨hmem,
          ⟨{ label := s.current_ticket_label
             overall_score :=
               (jGet (pyOr ((jGet j "overall_rating").getD (Json.obj [])) (Json.obj []))
                 "score").getD (Json.str "N/A")
             root_cause :=
               (jGet (pyOr ((jGet j "root_cause").getD (Json.obj [])) (Json.obj []))
                 "label").getD (Json.str "unknown")
             coaching_summary := (jGet j "coaching_summary").getD (Json.str "") },
           htruthy, rfl, rfl⟩⟩
    · exact Or.inl rfl

/-- C9 (confirmed, implicit claim).  A decoded result whose
`coaching_summary` is absent or the empty string is never appended to the
coaching history and its transcript hash is never marked seen; every stored
record's coaching summary is non-empty (it passed the truthiness guard); and
a later evaluation of the same transcript whose well-formed result does
carry a non-empty coaching summary is recorded, because the hash was never
marked. -/
theorem C9_empty_coaching_not_recorded :
    (∀ (ticket_text : String) (j : Json) (s : SessionState),
        jGet j "coaching_summary" = none ∨ jGet j "coaching_summary" = some (Json.str "") →
        recordStep ticket_text j s = s) ∧
    (∀ (s : SessionState) (ticket_text : String) (j : Json),
        (∀ rec ∈ s.coaching_history, rec.coaching_summary ≠ Json.str "") →
        ∀ rec ∈ (recordStep ticket_text j s).coaching_history,
          rec.coaching_summary ≠ Json.str "") ∧
    (∀ (ticket_text : String) (r : EvalRecord) (s : SessionState),
        r.coaching_summary ≠ "" → sha256hex ticket_text ∉ s.coaching_keys →
        (recordStep ticket_text r.toJson s).coaching_history =
          s.coaching_history ++
            [{ label := s.current_ticket_label
               overall_score := Json.int r.overall_rating.score
               root_cause := Json.str r.root_cause.label
               coaching_summary := Json.str r.coaching_summary }]) := by
  refine ⟨?_, ?_, ?_⟩
  · intro t j s h
    unfold recordStep
    split
    · rfl
    · dsimp only
      rcases h with h | h <;> rw [h] <;> simp [jTruthy]
  · intro s t j hinv rec hrec
    rcases recordStep_cases t j s with hcase | ⟨-, rec2, htr, -, hh⟩
    · rw [hcase] at hrec
      exact hinv rec hrec
    · rw [hh] at hrec
      rcases List.mem_append.mp hrec with hold | hnew
      · exact hinv rec hold
      · have : rec = rec2 := by simpa using hnew
        subst this
        intro he
        rw [he] at htr
        simp [jTruthy] at htr
  · intro t r s hc hk
    rw [recordStep_wellformed]
    rw [if_neg hc, if_neg hk]

/-- C9 witness: a well-formed result with empty coaching summary leaves the
initial session untouched; one with non-empty summary is appended. -/
theorem C9_witness :
    recordStep "t" sampleEmptyCoaching.toJson initial_session = initial_session ∧
    (recordStep "t" sampleContentGap.toJson initial_session).coaching_history =
      initial_session.coaching_history ++
        [{ label := initial_session.current_ticket_label
           overall_score := Json.int 3
           root_cause := Json.str "content_gap"
           coaching_summary := Json.str "• cite docs" }] :=
  ⟨C9_empty_coaching_not_recorded.1 "t" sampleEmptyCoaching.toJson initial_session
      (Or.inr rfl),
   C9_empty_coaching_not_recorded.2.2 "t" sampleContentGap initial_session
      (by decide) (by simp [initial_session])⟩

/-- C1 (amended).  For well-formed evaluation results whose coaching
summaries are non-empty (results that fail this guard are not recorded at
all — see C9), recording twice with byte-identical transcript text from a
state where that hash is unseen stores exactly one new record reflecting
the first call's result, and the second call is a silent no-op; and any
sequence of record operations preserves that the stored hash keys are
duplicate-free and in bijection with the stored records (no two stored
records share a transcript hash). -/
theorem C1_dedup_first_wins :
    (∀ (t : String) (r1 r2 : EvalRecord) (s : SessionState),
        r1.coaching_summary ≠ "" → r2.coaching_summary ≠ "" →
        sha256hex t ∉ s.coaching_keys →
        (recordStep t r1.toJson s).coaching_history =
            s.coaching_history ++
              [{ label := s.current_ticket_label
                 overall_score := Json.int r1.overall_rating.score
                 root_cause := Json.str r1.root_cause.label
                 coaching_summary := Json.str r1.coaching_summary }] ∧
          recordStep t r2.toJson (recordStep t r1.toJson s) = recordStep t r1.toJson s) ∧
    (∀ (ops : List (String × Json)) (s : SessionState),
        s.coaching_keys.Nodup → s.coaching_keys.length = s.coaching_history.length →
        (recordSeq ops s).coaching_keys.Nodup ∧
          (recordSeq ops s).coaching_keys.length = (recordSeq ops s).coaching_history.length) := by
  constructor
  · intro t r1 r2 s h1 h2 hk
    have hs1 : recordStep t r1.toJson s =
        { s with
          coaching_keys := s.coaching_keys ++ [sha256hex t]
          coaching_history := s.coaching_history ++
            [{ label := s.current_ticket_label
               overall_score := Json.int r1.overall_rating.score
               root_cause := Json.str r1.root_cause.label
               coaching_summary := Json.str r1.coaching_summary }] } := by
      rw [recordStep_wellformed, if_neg h1, if_neg hk]
    refine ⟨by rw [hs1], ?_⟩
    rw [hs1, recordStep_wellformed, if_neg h2, if_pos (by simp)]
  · intro ops
    induction ops with
    | nil => intro s h1 h2; exact ⟨h1, h2⟩
    | cons op ops ih =>
      intro s h1 h2
      have hn : (recordStep op.1 op.2 s).coaching_keys.Nodup := by
        rcases recordStep_cases op.1 op.2 s with hcase | ⟨hmem, rec, -, hkeys, -⟩
        · rw [hcase]; exact h1
        · rw [hkeys]; simp [List.nodup_append, h1, hmem]
      have hl : (recordStep op.1 op.2 s).coaching_keys.length =
          (recordStep op.1 op.2 s).coaching_history.length := by
        rcases recordStep_cases op.1 op.2 s with hcase | ⟨-, rec, -, hkeys, hhist⟩
        · rw [hcase]; exact h2
        · rw [hkeys, hhist]; simp [h2]
      have hseq : recordSeq (op :: ops) s = recordSeq ops (recordStep op.1 op.2 s) := rfl
      rw [hseq]
      exact ih _ hn hl

/-- C1 witness: two successive records of the same transcript with two
distinct well-formed results, from the empty session, store exactly the
first result's record, and the sequence invariant holds. -/
theorem C1_witness :
    (recordStep "t" sampleAgentPerf.toJson initial_session).coaching_history =
        initial_session.coaching_history ++
          [{ label := initial_session.current_ticket_label
             overall_score := Json.int 3
             root_cause := Json.str "agent_performance"
             coaching_summary := Json.str "• check history first" }] ∧
    recordStep "t" sampleContentGap.toJson (recordStep "t" sampleAgentPerf.toJson initial_session) =
      recordStep "t" sampleAgentPerf.toJson initial_session ∧
    (recordSeq [("t", sampleAgentPerf.toJson)] initial_session).coaching_keys.Nodup := by
  have h1 := C1_dedup_first_wins.1 "t" sampleAgentPerf sampleContentGap initial_session
    (by decide) (by decide) (by simp [initial_session])
  have h2 := C1_dedup_first_wins.2 [("t", sampleAgentPerf.toJson)] initial_session
    (by simp [initial_session]) (by simp [initial_session])
  exact ⟨h1.1, h1.2, h2.1⟩

/-- C1 counterexample.  With byte-identical transcript text and the pair of
well-formed evaluation results (empty-coaching first, non-empty second),
the two record calls store exactly one record — but it reflects the
*second* call's result, and the second call was not a no-op: the claim's
universal quantification over all pairs of evaluation results fails. -/
theorem C1_counterexample :
    sampleEmptyCoaching.coaching_summary = "" ∧
    recordStep "t" sampleEmptyCoaching.toJson initial_session = initial_session ∧
    (recordStep "t" sampleContentGap.toJson
        (recordStep "t" sampleEmptyCoaching.toJson initial_session)).coaching_history =
      [{ label := initial_session.current_ticket_label
         overall_score := Json.int 3
         root_cause := Json.str "content_gap"
         coaching_summary := Json.str "• cite docs" }] ∧
    Json.str "• cite docs" ≠ Json.str sampleEmptyCoaching.coaching_summary := by
  refine ⟨rfl, rfl, rfl, ?_⟩
  simp [show sampleEmptyCoaching.coaching_summary = "" from rfl]

/-! ## KB-generation gating (claim C5) -/

/-- C5 (confirmed).  For every well-formed evaluation result, the Step-2
gate permits invoking the KB Draft Generator only when the result's
`kb_article_suggestion` is non-empty and its root-cause label is
`content_gap` or `mixed`; in particular the gate is closed whenever the
label is `agent_performance`. -/
theorem C5_kb_gating (r : EvalRecord) :
    (kb_generation_enabled (some r.toJson) = true →
      r.root_cause.kb_article_suggestion ≠ "" ∧
        (r.root_cause.label = "content_gap" ∨ r.root_cause.label = "mixed")) ∧
    (r.root_cause.label = "agent_performance" →
      kb_generation_enabled (some r.toJson) = false) := by
  have hform : kb_generation_enabled (some r.toJson) = true ↔
      (r.root_cause.kb_article_suggestion ≠ "" ∧
        (r.root_cause.label = "content_gap" ∨ r.root_cause.label = "mixed")) := by
    simp [kb_generation_enabled, EvalRecord.toJson, CriterionScore.toJson, jHasKey, jGet,
      lookupKV, jTruthy, pyOr, Json.beq]
  constructor
  · exact hform.mp
  · intro h
    cases hb : kb_generation_enabled (some r.toJson) with
    | false => rfl
    | true =>
      exfalso
      rcases (hform.mp hb).2 with h2 | h2 <;> rw [h] at h2 <;> simp at h2

/-- C5 witness: the gate is closed on the agent-performance sample and its
open-gate consequences hold on the content-gap sample. -/
theorem C5_witness :
    kb_generation_enabled (some sampleAgentPerf.toJson) = false ∧
    (sampleContentGap.root_cause.kb_article_suggestion ≠ "" ∧
      (sampleContentGap.root_cause.label = "content_gap" ∨
        sampleContentGap.root_cause.label = "mixed")) :=
  ⟨(C5_kb_gating sampleAgentPerf).2 rfl, (C5_kb_gating sampleContentGap).1 rfl⟩

/-! ## Decoder round-trip machinery (claim C3) -/

/-- Skipping whitespace is the identity on a list whose head is not JSON whitespace. -/
theorem skipWs_not_ws (c : Char) (l : List Char) (h : isJsonWs c = false) :
    skipWs (c :: l) = c :: l := by
  simp [skipWs, List.dropWhile_cons, h]

/-- Skipping whitespace drops a whitespace head. -/
theorem skipWs_ws (c : Char) (l : List Char) (h : isJsonWs c = true) :
    skipWs (c :: l) = skipWs l := by
  simp [skipWs, List.dropWhile_cons, h]

/-- A digit character is a digit. -/
theorem digitChar_isDigit (d : Nat) (h : d < 10) : (digitChar d).isDigit = true := by
  interval_cases d <;> decide

/-- Decoding a digit character recovers the digit. -/
theorem digitChar_toNat (d : Nat) (h : d < 10) : (digitChar d).toNat - 48 = d := by
  interval_cases d <;> decide

/-- A digit character is not JSON whitespace. -/
theorem digitChar_not_ws (d : Nat) (h : d < 10) : isJsonWs (digitChar d) = false := by
  interval_cases d <;> decide

/-- A digit character is not a closing bracket. -/
theorem digitChar_ne_rbracket (d : Nat) (h : d < 10) : digitChar d ≠ ']' := by
  interval_cases d <;> decide

/-- A nonzero digit's character is not `'0'`. -/
theorem digitChar_ne_zero (d : Nat) (h : d < 10) (h0 : d ≠ 0) : digitChar d ≠ '0' := by
  interval_cases d
  · exact absurd rfl h0
  all_goals decide

/-- Horner evaluation of reversed digits. -/
theorem foldl_digits_eq (dl : List Nat) (acc : Nat) :
    dl.reverse.foldl (fun a d => 10 * a + d) acc = acc * 10 ^ dl.length + Nat.ofDigits 10 dl := by
  induction dl generalizing acc with
  | nil => simp
  | cons d dl ih =>
    rw [List.reverse_cons, List.foldl_append]
    simp only [List.foldl_cons, List.foldl_nil, ih, Nat.ofDigits_cons, List.length_cons]
    ring

/-- Shape of the decimal rendering of a nonzero natural: a nonzero leading
digit followed by digits, whose Horner evaluation is the number. -/
theorem natChars_shape (m : Nat) (hm : m ≠ 0) :
    ∃ d ds, d < 10 ∧ d ≠ 0 ∧ natChars m = digitChar d :: List.map digitChar ds ∧
      (∀ x ∈ ds, x < 10) ∧ List.foldl (fun a x => 10 * a + x) d ds = m := by
  have hne : Nat.digits 10 m ≠ [] := Nat.digits_ne_nil_iff_ne_zero.mpr hm
  have hrne : (Nat.digits 10 m).reverse ≠ [] := by simpa using hne
  obtain ⟨d, ds, hds⟩ := List.exists_cons_of_ne_nil hrne
  refine ⟨d, ds, ?_, ?_, ?_, ?_, ?_⟩
  · have : d ∈ Nat.digits 10 m := by
      rw [← List.mem_reverse, hds]; exact List.mem_cons_self d ds
    exact Nat.digits_lt_base (by norm_num) this
  · have h1 : (Nat.digits 10 m).getLast hne ≠ 0 := Nat.getLast_digit_ne_zero 10 hm
    have h2 : (Nat.digits 10 m).getLast? = some d := by
      rw [← List.head?_reverse, hds]; rfl
    rw [List.getLast?_eq_getLast _ hne, Option.some_inj] at h2
    rw [← h2]
    exact h1
  · unfold natChars
    rw [hds, List.map_cons]
  · intro x hx
    have : x ∈ Nat.digits 10 m := by
      rw [← List.mem_reverse, hds]; exact List.mem_cons_of_mem d hx
    exact Nat.digits_lt_base (by norm_num) this
  · have := foldl_digits_eq (Nat.digits 10 m) 0
    rw [hds, Nat.ofDigits_digits] at this
    simpa using this

/-- Continuation characters do not extend a number: the fraction/exponent
markers are also excluded. -/
theorem badNumTail_of_extendsNum (rest : List Char) (h : extendsNum rest = false) :
    badNumTail rest = false := by
  cases rest with
  | nil => rfl
  | cons c l =>
    simp [extendsNum] at h
    simp [badNumTail, h]

/-- The digit-run parser consumes exactly a rendered digit run. -/
theorem parseDigits_mapDigits (ds : List Nat) (h : ∀ x ∈ ds, x < 10) (acc : Nat)
    (rest : List Char) (hrest : extendsNum rest = false) :
    parseDigits acc (ds.map digitChar ++ rest) =
      (ds.foldl (fun a x => 10 * a + x) acc, rest) := by
  induction ds generalizing acc with
  | nil =>
    simp only [List.map_nil, List.nil_append, List.foldl_nil]
    cases rest with
    | nil => rfl
    | cons c l =>
      simp [extendsNum] at hrest
      simp [parseDigits, hrest]
  | cons d ds ih =>
    have hd : d < 10 := h d (List.mem_cons_self d ds)
    simp only [List.map_cons, List.cons_append, List.foldl_cons]
    rw [parseDigits, if_pos (digitChar_isDigit d hd), digitChar_toNat d hd]
    exact ih (fun x hx => h x (List.mem_cons_of_mem d hx)) _

/-- The unsigned-number parser consumes exactly a rendered nonzero natural. -/
theorem parseNumberNat_natChars (m : Nat) (hm : m ≠ 0) (rest : List Char)
    (hrest : extendsNum rest = false) :
    parseNumberNat (natChars m ++ rest) = some (m, rest) := by
  obtain ⟨d, ds, hd10, hd0, hshape, hds10, hfold⟩ := natChars_shape m hm
  rw [hshape]
  simp only [List.cons_append]
  rw [parseNumberNat, if_neg (digitChar_ne_zero d hd10 hd0),
    if_pos (digitChar_isDigit d hd10)]
  rw [digitChar_toNat d hd10, parseDigits_mapDigits ds hds10 d rest hrest]
  simp [badNumTail_of_extendsNum rest hrest, hfold]

/-- On a non-minus head character the number parser defers to the unsigned one. -/
theorem parseNumber_not_minus (c : Char) (l : List Char) (h : c ≠ '-') :
    parseNumber (c :: l) = (parseNumberNat (c :: l)).map fun pr => ((pr.1 : Int), pr.2) := by
  simp [parseNumber, h]

/-- The number parser consumes exactly a rendered integer. -/
theorem parseNumber_intChars (n : Int) (rest : List Char) (hrest : extendsNum rest = false) :
    parseNumber (intChars n ++ rest) = some (n, rest) := by
  by_cases hneg : n < 0
  · have hm : n.natAbs ≠ 0 := by omega
    rw [intChars, if_pos hneg]
    simp only [List.cons_append]
    rw [parseNumber, if_pos rfl, parseNumberNat_natChars n.natAbs hm rest hrest]
    simp only [Option.map_some']
    congr 2
    omega
  · by_cases h0 : n = 0
    · subst h0
      rw [intChars, if_neg hneg, if_pos rfl]
      simp only [List.cons_append, List.nil_append]
      rw [parseNumber, if_neg (by decide), parseNumberNat, if_pos rfl,
        badNumTail_of_extendsNum rest hrest]
      rfl
    · have hm : n.toNat ≠ 0 := by omega
      rw [intChars, if_neg hneg, if_neg h0]
      obtain ⟨d, ds, hd10, hd0, hshape, hds10, hfold⟩ := natChars_shape n.toNat hm
      have hmin : digitChar d ≠ '-' := by
        interval_cases d <;> decide
      rw [hshape]
      simp only [List.cons_append]
      rw [parseNumber_not_minus _ _ hmin, ← List.cons_append, ← hshape,
        parseNumberNat_natChars n.toNat hm rest hrest]
      simp only [Option.map_some']
      congr 2
      omega

/-- Hex digit characters decode to their values. -/
theorem hexVal_hexChar (m : Nat) (h : m < 16) : hexVal (hexChar m) = some m := by
  interval_cases m <;> decide

/-- One escaped character parses back to the original character. -/
theorem parseStringBody_escapeChar (c : Char) (rest : List Char) :
    parseStringBody (escapeChar c ++ rest) =
      (parseStringBody rest).map fun pr => (c :: pr.1, pr.2) := by
  unfold escapeChar
  split_ifs with h1 h2 h3 h4 h5 h6 h7 h8
  · subst h1; rw [parseStringBody.eq_def]; simp [escCode]
  · subst h2; rw [parseStringBody.eq_def]; simp [escCode]
  · subst h3; rw [parseStringBody.eq_def]; simp [escCode]
  · subst h4; rw [parseStringBody.eq_def]; simp [escCode]
  · subst h5; rw [parseStringBody.eq_def]; simp [escCode]
  · rw [h6, parseStringBody.eq_def]; simp [escCode]
  · rw [h7, parseStringBody.eq_def]; simp [escCode]
  · -- control character rendered as \u00XX
    have hq : c.toNat / 16 < 16 := by omega
    have hw : c.toNat % 16 < 16 := by omega
    have hn : ((0 * 16 + 0) * 16 + c.toNat / 16) * 16 + c.toNat % 16 = c.toNat := by omega
    have hlt : c.toNat < 0xd800 := by omega
    simp only [List.cons_append, List.nil_append]
    rw [parseStringBody.eq_def]
    simp only [hexVal_hexChar _ hq, hexVal_hexChar _ hw, show hexVal '0' = some 0 by decide]
    simp
    rw [show c.toNat / 16 * 16 + c.toNat % 16 = c.toNat from by omega]
    rw [if_pos (Or.inl hlt), Char.ofNat_toNat]
  · -- plain character
    simp only [List.cons_append, List.nil_append]
    rw [parseStringBody.eq_def]
    simp [h1, h2, show ¬ c.toNat < 0x20 by omega]

/-- A serialized string body followed by the closing quote parses back to
the original characters. -/
theorem parseStringBody_escape (l : List Char) (rest : List Char) :
    parseStringBody (escapeStr l ++ '"' :: rest) = some (l, rest) := by
  induction l with
  | nil =>
    rw [show escapeStr [] = [] from rfl, List.nil_append, parseStringBody.eq_def]
    simp
  | cons c l ih =>
    rw [show escapeStr (c :: l) = escapeChar c ++ escapeStr l from rfl, List.append_assoc,
      parseStringBody_escapeChar, ih]
    rfl

/-- A non-structural head character sends `parseVal` to the number parser. -/
theorem parseVal_head_num (c : Char) (fuel : Nat) (t : List Char)
    (hn : List.isPrefixOf ['n', 'u', 'l', 'l'] (c :: t) = false)
    (ht : List.isPrefixOf ['t', 'r', 'u', 'e'] (c :: t) = false)
    (hf : List.isPrefixOf ['f', 'a', 'l', 's', 'e'] (c :: t) = false)
    (hq : c ≠ '"') (hb : c ≠ '[') (ho : c ≠ '\x7b') :
    parseVal (fuel + 1) (c :: t) = (parseNumber (c :: t)).map fun pr => (Json.int pr.1, pr.2) := by
  rw [parseVal.eq_def]
  simp [hn, ht, hf, hq, hb, ho]

/-- A prefix check fails as soon as the heads differ. -/
theorem isPrefixOf_cons_ne (a c : Char) (pre t : List Char) (h : (a == c) = false) :
    List.isPrefixOf (a :: pre) (c :: t) = false := by
  simp [List.isPrefixOf]
  intro he
  rw [he] at h
  simp at h

/-- Digit characters are not keyword or structural heads. -/
theorem digitChar_no_kw (d : Nat) (h : d < 10) :
    ('n' == digitChar d) = false ∧ ('t' == digitChar d) = false ∧
    ('f' == digitChar d) = false ∧ digitChar d ≠ '"' ∧ digitChar d ≠ '[' ∧
    digitChar d ≠ '\x7b' ∧ digitChar d ≠ '-' := by
  interval_cases d <;> exact ⟨rfl, rfl, rfl, by decide, by decide, by decide, by decide⟩

/-- On a rendered integer the value parser dispatches to the number parser. -/
theorem parseVal_intChars_head (n : Int) (fuel : Nat) (l : List Char) :
    parseVal (fuel + 1) (intChars n ++ l) =
      (parseNumber (intChars n ++ l)).map fun pr => (Json.int pr.1, pr.2) := by
  by_cases hneg : n < 0
  · rw [intChars, if_pos hneg, List.cons_append]
    exact parseVal_head_num '-' fuel _
      (isPrefixOf_cons_ne _ _ _ _ (by decide)) (isPrefixOf_cons_ne _ _ _ _ (by decide))
      (isPrefixOf_cons_ne _ _ _ _ (by decide)) (by decide) (by decide) (by decide)
  · by_cases h0 : n = 0
    · subst h0
      rw [intChars, if_neg hneg, if_pos rfl, List.cons_append, List.nil_append]
      exact parseVal_head_num '0' fuel _
        (isPrefixOf_cons_ne _ _ _ _ (by decide)) (isPrefixOf_cons_ne _ _ _ _ (by decide))
        (isPrefixOf_cons_ne _ _ _ _ (by decide)) (by decide) (by decide) (by decide)
    · have hm : n.toNat ≠ 0 := by omega
      obtain ⟨d, ds, hd10, hd0, hshape, hds10, hfold⟩ := natChars_shape n.toNat hm
      obtain ⟨k1, k2, k3, k4, k5, k6, k7⟩ := digitChar_no_kw d hd10
      rw [intChars, if_neg hneg, if_neg h0, hshape, List.cons_append]
      exact parseVal_head_num _ fuel _
        (isPrefixOf_cons_ne _ _ _ _ k1) (isPrefixOf_cons_ne _ _ _ _ k2)
        (isPrefixOf_cons_ne _ _ _ _ k3) k4 k5 k6

/-- Parsing a serialized integer followed by non-extending characters
recovers the integer. -/
theorem parseVal_int (n : Int) (fuel : Nat) (rest : List Char)
    (h : extendsNum rest = false) :
    parseVal (fuel + 1) (dumpsVal (Json.int n) ++ rest) = some (Json.int n, rest) := by
  rw [show dumpsVal (Json.int n) = intChars n from rfl, parseVal_intChars_head,
    parseNumber_intChars n rest h]
  rfl

/-- The serialization of any value is non-empty, starts with a
non-whitespace character, and never starts with `']'`. -/
theorem dumpsVal_shape (v : Json) :
    ∃ c t, dumpsVal v = c :: t ∧ isJsonWs c = false ∧ c ≠ ']' := by
  cases v with
  | null => exact ⟨'n', ("ull" : String).data, rfl, by decide, by decide⟩
  | bool b =>
    cases b
    · exact ⟨'f', ("alse" : String).data, rfl, by decide, by decide⟩
    · exact ⟨'t', ("rue" : String).data, rfl, by decide, by decide⟩
  | str s => exact ⟨'"', _, rfl, by decide, by decide⟩
  | arr es => exact ⟨'[', _, rfl, by decide, by decide⟩
  | obj kvs => exact ⟨'\x7b', _, rfl, by decide, by decide⟩
  | int n =>
    by_cases hneg : n < 0
    · exact ⟨'-', natChars n.natAbs,
        by rw [show dumpsVal (Json.int n) = intChars n from rfl, intChars, if_pos hneg],
        by decide, by decide⟩
    · by_cases h0 : n = 0
      · subst h0
        exact ⟨'0', [],
          by rw [show dumpsVal (Json.int 0) = intChars 0 from rfl]; rfl, by decide, by decide⟩
      · have hm : n.toNat ≠ 0 := by omega
        obtain ⟨d, ds, hd10, hd0, hshape, -, -⟩ := natChars_shape n.toNat hm
        exact ⟨digitChar d, List.map digitChar ds,
          by rw [show dumpsVal (Json.int n) = intChars n from rfl, intChars, if_neg hneg,
            if_neg h0, hshape],
          digitChar_not_ws d hd10, digitChar_ne_rbracket d hd10⟩

/-- The continuation after an array element never extends a number. -/
theorem extendsNum_elems_tail (es : List Json) (rest : List Char) :
    extendsNum (dumpsElemsTail es ++ ']' :: rest) = false := by
  cases es <;> rfl

/-- The continuation after an object member never extends a number. -/
theorem extendsNum_members_tail (kvs : List (String × Json)) (rest : List Char) :
    extendsNum (dumpsMembersTail kvs ++ '\x7d' :: rest) = false := by
  cases kvs with
  | nil => rfl
  | cons kv kvs => obtain ⟨k, v⟩ := kv; rfl

/-- No whitespace to skip after an array element. -/
theorem skipWs_elems_tail (es : List Json) (rest : List Char) :
    skipWs (dumpsElemsTail es ++ ']' :: rest) = dumpsElemsTail es ++ ']' :: rest := by
  cases es with
  | nil => exact skipWs_not_ws ']' rest (by decide)
  | cons e es => exact skipWs_not_ws ',' _ (by decide)

/-- No whitespace to skip after an object member. -/
theorem skipWs_members_tail (kvs : List (String × Json)) (rest : List Char) :
    skipWs (dumpsMembersTail kvs ++ '\x7d' :: rest) = dumpsMembersTail kvs ++ '\x7d' :: rest := by
  cases kvs with
  | nil => exact skipWs_not_ws '\x7d' rest (by decide)
  | cons kv kvs => obtain ⟨k, v⟩ := kv; exact skipWs_not_ws ',' _ (by decide)

/-- No whitespace to skip before a serialized value. -/
theorem skipWs_dumpsVal (v : Json) (X : List Char) :
    skipWs (dumpsVal v ++ X) = dumpsVal v ++ X := by
  obtain ⟨c, t, hct, hw, -⟩ := dumpsVal_shape v
  rw [hct, List.cons_append, skipWs_not_ws c _ hw]

/-- Round-trip of the parser over the serializer, for values, array
continuations and object continuations simultaneously (strong induction on
the fuel measure). -/
theorem parse_dumps_all (N : Nat) :
    (∀ v : Json, sizeJ v ≤ N → ∀ (fuel : Nat) (rest : List Char), sizeJ v < fuel →
        extendsNum rest = false →
        parseVal fuel (dumpsVal v ++ rest) = some (v, rest)) ∧
    (∀ es : List Json, sizeElems es ≤ N → ∀ (fuel : Nat) (rest : List Char),
        sizeElems es ≤ fuel →
        parseElemsRest fuel (dumpsElemsTail es ++ ']' :: rest) = some (es, rest)) ∧
    (∀ kvs : List (String × Json), sizeMembers kvs ≤ N → ∀ (fuel : Nat) (rest : List Char),
        sizeMembers kvs ≤ fuel →
        parseMembersRest fuel (dumpsMembersTail kvs ++ '\x7d' :: rest) = some (kvs, rest)) := by
  induction N using Nat.strong_induction_on with
  | _ N IH =>
  have IHv : ∀ w : Json, sizeJ w < N → ∀ (fuel : Nat) (rest : List Char), sizeJ w < fuel →
      extendsNum rest = false → parseVal fuel (dumpsVal w ++ rest) = some (w, rest) :=
    fun w hw => (IH (sizeJ w) hw).1 w le_rfl
  have IHe : ∀ es : List Json, sizeElems es < N → ∀ (fuel : Nat) (rest : List Char),
      sizeElems es ≤ fuel →
      parseElemsRest fuel (dumpsElemsTail es ++ ']' :: rest) = some (es, rest) :=
    fun es he => (IH (sizeElems es) he).2.1 es le_rfl
  have IHm : ∀ kvs : List (String × Json), sizeMembers kvs < N →
      ∀ (fuel : Nat) (rest : List Char), sizeMembers kvs ≤ fuel →
      parseMembersRest fuel (dumpsMembersTail kvs ++ '\x7d' :: rest) = some (kvs, rest) :=
    fun kvs hm => (IH (sizeMembers kvs) hm).2.2 kvs le_rfl
  refine ⟨?_, ?_, ?_⟩
  · -- values
    intro v hvN fuel rest hfuel hrest
    cases v with
    | null =>
      obtain ⟨g, rfl⟩ : ∃ g, fuel = g + 1 := ⟨fuel - 1, by omega⟩
      rw [show dumpsVal Json.null = ['n', 'u', 'l', 'l'] from rfl, parseVal.eq_def]
      simp [List.isPrefixOf]
    | bool b =>
      obtain ⟨g, rfl⟩ : ∃ g, fuel = g + 1 := ⟨fuel - 1, by omega⟩
      cases b with
      | true =>
        rw [show dumpsVal (Json.bool true) = ['t', 'r', 'u', 'e'] from rfl, parseVal.eq_def]
        simp [List.isPrefixOf]
      | false =>
        rw [show dumpsVal (Json.bool false) = ['f', 'a', 'l', 's', 'e'] from rfl, parseVal.eq_def]
        simp [List.isPrefixOf]
    | int n =>
      obtain ⟨g, rfl⟩ : ∃ g, fuel = g + 1 := ⟨fuel - 1, by omega⟩
      exact parseVal_int n g rest hrest
    | str s =>
      obtain ⟨g, rfl⟩ : ∃ g, fuel = g + 1 := ⟨fuel - 1, by omega⟩
      have hlist : dumpsVal (Json.str s) ++ rest =
          '"' :: (escapeStr s.data ++ '"' :: rest) := by
        rw [show dumpsVal (Json.str s) = '"' :: (escapeStr s.data ++ ['"']) from rfl]
        simp
      rw [hlist, parseVal.eq_def]
      simp only [List.isPrefixOf, Bool.and_eq_true, beq_iff_eq, reduceCtorEq]
      simp [parseStringBody_escape]
    | arr es =>
      have hsz : sizeJ (Json.arr es) = sizeElems es + 2 := rfl
      rw [hsz] at hvN hfuel
      obtain ⟨g, rfl, hg⟩ : ∃ g, fuel = g + 1 ∧ sizeElems es + 2 ≤ g :=
        ⟨fuel - 1, by omega, by omega⟩
      have hlist : dumpsVal (Json.arr es) ++ rest = '[' :: (dumpsElems es ++ ']' :: rest) := by
        rw [show dumpsVal (Json.arr es) = '[' :: (dumpsElems es ++ [']']) from rfl]
        simp
      rw [hlist, parseVal.eq_def]
      simp only [List.isPrefixOf, Bool.and_eq_true, beq_iff_eq, reduceCtorEq]
      simp only [if_neg (by decide : ¬('[' : Char) = '"'), if_pos rfl,
        reduceIte]
      cases es with
      | nil =>
        rw [show dumpsElems ([] : List Json) = [] from rfl, List.nil_append,
          skipWs_not_ws ']' rest (by decide)]
        obtain ⟨g2, rfl⟩ : ∃ g2, g = g2 + 1 := ⟨g - 1, by omega⟩
        rw [parseElemsStart.eq_def]
        simp
      | cons e es2 =>
        have hse : sizeElems (e :: es2) = sizeJ e + sizeElems es2 + 1 := rfl
        rw [hse] at hg
        have hlist2 : dumpsElems (e :: es2) ++ ']' :: rest =
            dumpsVal e ++ (dumpsElemsTail es2 ++ ']' :: rest) := by
          rw [show dumpsElems (e :: es2) = dumpsVal e ++ dumpsElemsTail es2 from rfl]
          simp
        rw [hlist2, skipWs_dumpsVal]
        obtain ⟨g2, rfl, hg2⟩ : ∃ g2, g = g2 + 1 ∧ sizeJ e + sizeElems es2 + 1 ≤ g2 :=
          ⟨g - 1, by omega, by omega⟩
        obtain ⟨c, t, hct, hw, hrb⟩ := dumpsVal_shape e
        rw [hct, List.cons_append, parseElemsStart.eq_def]
        simp only [if_neg hrb]
        rw [← List.cons_append, ← hct]
        rw [IHv e (by omega) g2 _ (by omega) (extendsNum_elems_tail es2 rest)]
        simp only [Option.some_bind]
        rw [skipWs_elems_tail, IHe es2 (by omega) g2 rest (by omega)]
        rfl
    | obj kvs =>
      have hsz : sizeJ (Json.obj kvs) = sizeMembers kvs + 2 := rfl
      rw [hsz] at hvN hfuel
      obtain ⟨g, rfl, hg⟩ : ∃ g, fuel = g + 1 ∧ sizeMembers kvs + 2 ≤ g :=
        ⟨fuel - 1, by omega, by omega⟩
      have hlist : dumpsVal (Json.obj kvs) ++ rest =
          '\x7b' :: (dumpsMembers kvs ++ '\x7d' :: rest) := by
        rw [show dumpsVal (Json.obj kvs) = '\x7b' :: (dumpsMembers kvs ++ ['\x7d']) from rfl]
        simp
      rw [hlist, parseVal.eq_def]
      simp only [List.isPrefixOf, Bool.and_eq_true, beq_iff_eq, reduceCtorEq]
      simp only [if_neg (by decide : ¬('\x7b' : Char) = '"'),
        if_neg (by decide : ¬('\x7b' : Char) = '['), if_pos rfl, reduceIte]
      cases kvs with
      | nil =>
        rw [show dumpsMembers ([] : List (String × Json)) = [] from rfl, List.nil_append,
          skipWs_not_ws '\x7d' rest (by decide)]
        obtain ⟨g2, rfl⟩ : ∃ g2, g = g2 + 1 := ⟨g - 1, by omega⟩
        rw [parseMembersStart.eq_def]
        simp
      | cons kv kvs2 =>
        obtain ⟨k, v2⟩ := kv
        have hsm : sizeMembers ((k, v2) :: kvs2) = sizeJ v2 + sizeMembers kvs2 + 1 := rfl
        rw [hsm] at hg
        have hlist2 : dumpsMembers ((k, v2) :: kvs2) ++ '\x7d' :: rest =
            '"' :: (escapeStr k.data ++
              '"' :: ':' :: ' ' :: (dumpsVal v2 ++ (dumpsMembersTail kvs2 ++ '\x7d' :: rest))) := by
          rw [show dumpsMembers ((k, v2) :: kvs2) =
            ('"' :: (escapeStr k.data ++ '"' :: ':' :: ' ' :: dumpsVal v2)) ++
              dumpsMembersTail kvs2 from rfl]
          simp
        rw [hlist2, skipWs_not_ws '"' _ (by decide)]
        obtain ⟨g2, rfl, hg2⟩ : ∃ g2, g = g2 + 1 ∧ sizeJ v2 + sizeMembers kvs2 + 1 ≤ g2 :=
          ⟨g - 1, by omega, by omega⟩
        rw [parseMembersStart.eq_def]
        simp only [if_neg (by decide : ¬('"' : Char) = '\x7d'), if_pos rfl, reduceIte]
        rw [parseStringBody_escape]
        simp only [Option.some_bind]
        rw [skipWs_not_ws ':' _ (by decide)]
        simp only []
        rw [skipWs_ws ' ' _ (by decide), skipWs_dumpsVal]
        rw [IHv v2 (by omega) g2 _ (by omega) (extendsNum_members_tail kvs2 rest)]
        simp only [Option.some_bind]
        rw [skipWs_members_tail, IHm kvs2 (by omega) g2 rest (by omega)]
        rfl
  · -- array continuations
    intro es hesN fuel rest hfuel
    cases es with
    | nil =>
      obtain ⟨g, rfl⟩ : ∃ g, fuel = g + 1 := ⟨fuel - 1, by
        have : sizeElems ([] : List Json) = 1 := rfl
        omega⟩
      rw [show dumpsElemsTail ([] : List Json) = [] from rfl, List.nil_append,
        parseElemsRest.eq_def]
      simp
    | cons e es2 =>
      have hse : sizeElems (e :: es2) = sizeJ e + sizeElems es2 + 1 := rfl
      rw [hse] at hesN hfuel
      obtain ⟨g, rfl, hg⟩ : ∃ g, fuel = g + 1 ∧ sizeJ e + sizeElems es2 ≤ g :=
        ⟨fuel - 1, by omega, by omega⟩
      have hlist : dumpsElemsTail (e :: es2) ++ ']' :: rest =
          ',' :: ' ' :: (dumpsVal e ++ (dumpsElemsTail es2 ++ ']' :: rest)) := by
        rw [show dumpsElemsTail (e :: es2) = ',' :: ' ' :: (dumpsVal e ++ dumpsElemsTail es2)
          from rfl]
        simp
      rw [hlist, parseElemsRest.eq_def]
      simp only [if_neg (by decide : ¬(',' : Char) = ']'), if_pos rfl, reduceIte]
      rw [skipWs_ws ' ' _ (by decide), skipWs_dumpsVal]
      have hsze : sizeElems es2 ≥ 1 := by cases es2 <;> simp [sizeElems]
      rw [IHv e (by omega) g _ (by omega) (extendsNum_elems_tail es2 rest)]
      simp only [Option.some_bind]
      rw [skipWs_elems_tail, IHe es2 (by omega) g rest (by omega)]
      rfl
  · -- object continuations
    intro kvs hkvN fuel rest hfuel
    cases kvs with
    | nil =>
      obtain ⟨g, rfl⟩ : ∃ g, fuel = g + 1 := ⟨fuel - 1, by
        have : sizeMembers ([] : List (String × Json)) = 1 := rfl
        omega⟩
      rw [show dumpsMembersTail ([] : List (String × Json)) = [] from rfl, List.nil_append,
        parseMembersRest.eq_def]
      simp
    | cons kv kvs2 =>
      obtain ⟨k, v2⟩ := kv
      have hsm : sizeMembers ((k, v2) :: kvs2) = sizeJ v2 + sizeMembers kvs2 + 1 := rfl
      rw [hsm] at hkvN hfuel
      obtain ⟨g, rfl, hg⟩ : ∃ g, fuel = g + 1 ∧ sizeJ v2 + sizeMembers kvs2 ≤ g :=
        ⟨fuel - 1, by omega, by omega⟩
      have hlist : dumpsMembersTail ((k, v2) :: kvs2) ++ '\x7d' :: rest =
          ',' :: ' ' :: '"' :: (escapeStr k.data ++
            '"' :: ':' :: ' ' :: (dumpsVal v2 ++ (dumpsMembersTail kvs2 ++ '\x7d' :: rest))) := by
        rw [show dumpsMembersTail ((k, v2) :: kvs2) =
          ',' :: ' ' :: (('"' :: (escapeStr k.data ++ '"' :: ':' :: ' ' :: dumpsVal v2)) ++
            dumpsMembersTail kvs2) from rfl]
        simp
      rw [hlist, parseMembersRest.eq_def]
      simp only [if_neg (by decide : ¬(',' : Char) = '\x7d'), if_pos rfl, reduceIte]
      rw [skipWs_ws ' ' _ (by decide), skipWs_not_ws '"' _ (by decide)]
      simp only []
      rw [parseStringBody_escape]
      simp only [Option.some_bind]
      rw [skipWs_not_ws ':' _ (by decide)]
      simp only []
      rw [skipWs_ws ' ' _ (by decide), skipWs_dumpsVal]
      have hszm : sizeMembers kvs2 ≥ 1 := by
        cases kvs2 with
        | nil => simp [sizeMembers]
        | cons kv3 kvs3 => obtain ⟨k3, v3⟩ := kv3; simp [sizeMembers]
      rw [IHv v2 (by omega) g _ (by omega) (extendsNum_members_tail kvs2 rest)]
      simp only [Option.some_bind]
      rw [skipWs_members_tail, IHm kvs2 (by omega) g rest (by omega)]
      rfl

/-- The fuel measure is dominated by twice the serialized length. -/
theorem sizeJ_dumps_all (N : Nat) :
    (∀ v : Json, sizeJ v ≤ N → sizeJ v ≤ 2 * (dumpsVal v).length) ∧
    (∀ es : List Json, sizeElems es ≤ N → sizeElems es ≤ 2 * (dumpsElemsTail es).length + 1) ∧
    (∀ kvs : List (String × Json), sizeMembers kvs ≤ N →
      sizeMembers kvs ≤ 2 * (dumpsMembersTail kvs).length + 1) := by
  induction N using Nat.strong_induction_on with
  | _ N IH =>
  have IHv : ∀ w : Json, sizeJ w < N → sizeJ w ≤ 2 * (dumpsVal w).length :=
    fun w hw => (IH (sizeJ w) hw).1 w le_rfl
  have IHe : ∀ es : List Json, sizeElems es < N →
      sizeElems es ≤ 2 * (dumpsElemsTail es).length + 1 :=
    fun es he => (IH (sizeElems es) he).2.1 es le_rfl
  have IHm : ∀ kvs : List (String × Json), sizeMembers kvs < N →
      sizeMembers kvs ≤ 2 * (dumpsMembersTail kvs).length + 1 :=
    fun kvs hm => (IH (sizeMembers kvs) hm).2.2 kvs le_rfl
  refine ⟨?_, ?_, ?_⟩
  · intro v hvN
    cases v with
    | null => simp [sizeJ, dumpsVal]
    | bool b => cases b <;> simp [sizeJ, dumpsVal]
    | int n =>
      obtain ⟨c, t, hct, -, -⟩ := dumpsVal_shape (Json.int n)
      rw [show sizeJ (Json.int n) = 1 from rfl, hct]
      simp only [List.length_cons]
      omega
    | str s =>
      rw [show sizeJ (Json.str s) = 1 from rfl,
        show dumpsVal (Json.str s) = '"' :: (escapeStr s.data ++ ['"']) from rfl]
      simp only [List.length_cons, List.length_append, List.length_singleton]
      omega
    | arr es =>
      have hsz : sizeJ (Json.arr es) = sizeElems es + 2 := rfl
      rw [hsz] at hvN ⊢
      rw [show dumpsVal (Json.arr es) = '[' :: (dumpsElems es ++ [']']) from rfl]
      cases es with
      | nil =>
        rw [show sizeElems ([] : List Json) = 1 from rfl]
        simp only [List.length_cons, List.length_append, List.length_singleton]
        omega
      | cons e es2 =>
        have h1 : sizeJ e ≤ 2 * (dumpsVal e).length := by
          apply IHv
          have : sizeElems (e :: es2) = sizeJ e + sizeElems es2 + 1 := rfl
          omega
        have h2 : sizeElems es2 ≤ 2 * (dumpsElemsTail es2).length + 1 := by
          apply IHe
          have : sizeElems (e :: es2) = sizeJ e + sizeElems es2 + 1 := rfl
          omega
        have hse : sizeElems (e :: es2) = sizeJ e + sizeElems es2 + 1 := rfl
        rw [hse, show dumpsElems (e :: es2) = dumpsVal e ++ dumpsElemsTail es2 from rfl]
        simp only [List.length_cons, List.length_append, List.length_singleton]
        omega
    | obj kvs =>
      have hsz : sizeJ (Json.obj kvs) = sizeMembers kvs + 2 := rfl
      rw [hsz] at hvN ⊢
      rw [show dumpsVal (Json.obj kvs) = '\x7b' :: (dumpsMembers kvs ++ ['\x7d']) from rfl]
      cases kvs with
      | nil =>
        rw [show sizeMembers ([] : List (String × Json)) = 1 from rfl]
        simp only [List.length_cons, List.length_append, List.length_singleton]
        omega
      | cons kv kvs2 =>
        obtain ⟨k, v2⟩ := kv
        have hsm : sizeMembers ((k, v2) :: kvs2) = sizeJ v2 + sizeMembers kvs2 + 1 := rfl
        have h1 : sizeJ v2 ≤ 2 * (dumpsVal v2).length := by apply IHv; omega
        have h2 : sizeMembers kvs2 ≤ 2 * (dumpsMembersTail kvs2).length + 1 := by
          apply IHm; omega
        rw [hsm, show dumpsMembers ((k, v2) :: kvs2) =
          ('"' :: (escapeStr k.data ++ '"' :: ':' :: ' ' :: dumpsVal v2)) ++
            dumpsMembersTail kvs2 from rfl]
        simp only [List.length_cons, List.length_append, List.length_singleton]
        omega
  · intro es hesN
    cases es with
    | nil =>
      rw [show sizeElems ([] : List Json) = 1 from rfl]
      omega
    | cons e es2 =>
      have hse : sizeElems (e :: es2) = sizeJ e + sizeElems es2 + 1 := rfl
      have h1 : sizeJ e ≤ 2 * (dumpsVal e).length := by apply IHv; omega
      have h2 : sizeElems es2 ≤ 2 * (dumpsElemsTail es2).length + 1 := by apply IHe; omega
      rw [hse, show dumpsElemsTail (e :: es2) =
        ',' :: ' ' :: (dumpsVal e ++ dumpsElemsTail es2) from rfl]
      simp only [List.length_cons, List.length_append]
      omega
  · intro kvs hkvN
    cases kvs with
    | nil =>
      rw [show sizeMembers ([] : List (String × Json)) = 1 from rfl]
      omega
    | cons kv kvs2 =>
      obtain ⟨k, v2⟩ := kv
      have hsm : sizeMembers ((k, v2) :: kvs2) = sizeJ v2 + sizeMembers kvs2 + 1 := rfl
      have h1 : sizeJ v2 ≤ 2 * (dumpsVal v2).length := by apply IHv; omega
      have h2 : sizeMembers kvs2 ≤ 2 * (dumpsMembersTail kvs2).length + 1 := by apply IHm; omega
      rw [hsm, show dumpsMembersTail ((k, v2) :: kvs2) =
        ',' :: ' ' :: (('"' :: (escapeStr k.data ++ '"' :: ':' :: ' ' :: dumpsVal v2)) ++
          dumpsMembersTail kvs2) from rfl]
      simp only [List.length_cons, List.length_append]
      omega

/-- The fuel `json_loads` allots always suffices for its own serializer's
output. -/
theorem sizeJ_le_dumps (v : Json) : sizeJ v ≤ 2 * (dumpsVal v).length :=
  (sizeJ_dumps_all (sizeJ v)).1 v le_rfl

/-- Parsing back a serialized value recovers it. -/
theorem json_loads_dumps (j : Json) : json_loads (json_dumps j) = some j := by
  unfold json_loads
  rw [show (json_dumps j).data = dumpsVal j from rfl,
    show (json_dumps j).length = (dumpsVal j).length from rfl]
  have h1 : skipWs (dumpsVal j) = dumpsVal j := by
    have := skipWs_dumpsVal j []
    simpa using this
  rw [h1]
  have h2 : parseVal (2 * (dumpsVal j).length + 2) (dumpsVal j ++ []) = some (j, []) :=
    (parse_dumps_all (sizeJ j)).1 j le_rfl _ []
      (by have := sizeJ_le_dumps j; omega) rfl
  rw [List.append_nil] at h2
  rw [h2]
  rfl

/-- Stripping the ```` ```json ```` fence from a fenced serialized object
recovers exactly the serialized object. -/
theorem stripFences_wrap_obj (kvs : List (String × Json)) :
    stripFences (wrapJsonFence (json_dumps (Json.obj kvs))) = json_dumps (Json.obj kvs) := by
  have hdata : (wrapJsonFence (json_dumps (Json.obj kvs))).data =
      '\x60' :: '\x60' :: '\x60' :: 'j' :: 's' :: 'o' :: 'n' :: '\n' :: '\x7b' ::
        (dumpsMembers kvs ++ ['\x7d', '\n', '\x60', '\x60', '\x60']) := by
    rw [wrapJsonFence, String.data_append, String.data_append,
      show (json_dumps (Json.obj kvs)).data = '\x7b' :: (dumpsMembers kvs ++ ['\x7d'])
        from rfl,
      show ("```json\n" : String).data = ['\x60', '\x60', '\x60', 'j', 's', 'o', 'n', '\n']
        from rfl,
      show ("\n```" : String).data = ['\n', '\x60', '\x60', '\x60'] from rfl]
    simp
  have hstrip1 : stripWhile isPySpace ('\x60' :: '\x60' :: '\x60' :: 'j' :: 's' :: 'o' :: 'n' ::
      '\n' :: '\x7b' :: (dumpsMembers kvs ++ ['\x7d', '\n', '\x60', '\x60', '\x60'])) =
      '\x60' :: '\x60' :: '\x60' :: 'j' :: 's' :: 'o' :: 'n' :: '\n' :: '\x7b' ::
        (dumpsMembers kvs ++ ['\x7d', '\n', '\x60', '\x60', '\x60']) := by
    unfold stripWhile
    rw [List.dropWhile_cons, if_neg (by decide)]
    have hrev : ('\x60' :: '\x60' :: '\x60' :: 'j' :: 's' :: 'o' :: 'n' :: '\n' :: '\x7b' ::
        (dumpsMembers kvs ++ ['\x7d', '\n', '\x60', '\x60', '\x60'])).reverse =
        '\x60' :: '\x60' :: '\x60' :: '\n' :: '\x7d' :: ((dumpsMembers kvs).reverse ++
          ['\x7b', '\n', 'n', 'o', 's', 'j', '\x60', '\x60', '\x60']) := by
      simp
    rw [hrev, List.dropWhile_cons, if_neg (by decide), ← hrev, List.reverse_reverse]
  have hps : pyStrip (wrapJsonFence (json_dumps (Json.obj kvs))) =
      wrapJsonFence (json_dumps (Json.obj kvs)) := by
    unfold pyStrip
    rw [hdata, hstrip1, ← hdata]
  have hsw1 : pyStartsWith (wrapJsonFence (json_dumps (Json.obj kvs))) "```" = true := by
    unfold pyStartsWith
    rw [hdata, show ("```" : String).data = ['\x60', '\x60', '\x60'] from rfl]
    simp [List.isPrefixOf]
  have hbt : pyStripBackticks (wrapJsonFence (json_dumps (Json.obj kvs))) =
      String.mk ('j' :: 's' :: 'o' :: 'n' :: '\n' :: '\x7b' ::
        (dumpsMembers kvs ++ ['\x7d', '\n'])) := by
    unfold pyStripBackticks
    rw [hdata]
    unfold stripWhile
    rw [List.dropWhile_cons, if_pos (by decide), List.dropWhile_cons, if_pos (by decide),
      List.dropWhile_cons, if_pos (by decide), List.dropWhile_cons, if_neg (by decide)]
    have hrev2 : ('j' :: 's' :: 'o' :: 'n' :: '\n' :: '\x7b' ::
        (dumpsMembers kvs ++ ['\x7d', '\n', '\x60', '\x60', '\x60'])).reverse =
        '\x60' :: '\x60' :: '\x60' :: '\n' :: '\x7d' :: ((dumpsMembers kvs).reverse ++
          ['\x7b', '\n', 'n', 'o', 's', 'j']) := by
      simp
    rw [hrev2, List.dropWhile_cons, if_pos (by decide), List.dropWhile_cons,
      if_pos (by decide), List.dropWhile_cons, if_pos (by decide), List.dropWhile_cons,
      if_neg (by decide)]
    have hrev3 : ('\n' :: '\x7d' :: ((dumpsMembers kvs).reverse ++
        ['\x7b', '\n', 'n', 'o', 's', 'j'])).reverse =
        'j' :: 's' :: 'o' :: 'n' :: '\n' :: '\x7b' :: (dumpsMembers kvs ++ ['\x7d', '\n']) := by
      simp
    rw [hrev3]
  have hsw2 : pyStartsWith (pyLower (String.mk ('j' :: 's' :: 'o' :: 'n' :: '\n' :: '\x7b' ::
      (dumpsMembers kvs ++ ['\x7d', '\n'])))) "json" = true := by
    unfold pyLower pyStartsWith
    rw [show ("json" : String).data = ['j', 's', 'o', 'n'] from rfl]
    simp [List.isPrefixOf]
  have hfin : pyStrip (pyDropChars 4 (String.mk ('j' :: 's' :: 'o' :: 'n' :: '\n' :: '\x7b' ::
      (dumpsMembers kvs ++ ['\x7d', '\n'])))) = json_dumps (Json.obj kvs) := by
    unfold pyDropChars pyStrip
    rw [show (String.mk ('j' :: 's' :: 'o' :: 'n' :: '\n' :: '\x7b' ::
      (dumpsMembers kvs ++ ['\x7d', '\n']))).data.drop 4 =
      '\n' :: '\x7b' :: (dumpsMembers kvs ++ ['\x7d', '\n']) from rfl]
    unfold stripWhile
    rw [List.dropWhile_cons, if_pos (by decide), List.dropWhile_cons, if_neg (by decide)]
    have hrev4 : ('\x7b' :: (dumpsMembers kvs ++ ['\x7d', '\n'])).reverse =
        '\n' :: '\x7d' :: ((dumpsMembers kvs).reverse ++ ['\x7b']) := by
      simp
    rw [hrev4, List.dropWhile_cons, if_pos (by decide), List.dropWhile_cons,
      if_neg (by decide)]
    have hrev5 : ('\x7d' :: ((dumpsMembers kvs).reverse ++ ['\x7b'])).reverse =
        '\x7b' :: (dumpsMembers kvs ++ ['\x7d']) := by
      simp
    rw [hrev5]
    rfl
  unfold stripFences
  rw [hps, if_pos hsw1, hbt, if_pos hsw2, hfin]

/-- C3 (confirmed).  Serializing a well-formed evaluation-schema record,
wrapping it in a ```` ```json ```` fence and running it through the
decoder's strip-and-parse algorithm recovers exactly the record's
dictionary; and the dictionary determines the record, so the original
record is recovered. -/
theorem C3_decoder_roundtrip (r : EvalRecord) :
    parse_model_output (wrapJsonFence (json_dumps r.toJson)) = r.toJson ∧
    ∀ r2 : EvalRecord, r2.toJson = r.toJson → r2 = r := by
  constructor
  · unfold parse_model_output
    have h1 : stripFences (wrapJsonFence (json_dumps (EvalRecord.toJson r))) =
        json_dumps (EvalRecord.toJson r) := stripFences_wrap_obj _
    rw [h1, json_loads_dumps]
  · intro r2 h
    obtain ⟨⟨a1, a2⟩, ⟨b1, b2⟩, ⟨c1, c2⟩, ⟨d1, d2⟩, ⟨e1, e2⟩, ⟨f1, f2⟩, ⟨g1, g2, g3⟩, h8⟩ := r2
    obtain ⟨⟨a1', a2'⟩, ⟨b1', b2'⟩, ⟨c1', c2'⟩, ⟨d1', d2'⟩, ⟨e1', e2'⟩, ⟨f1', f2'⟩,
      ⟨g1', g2', g3'⟩, h8'⟩ := r
    simp only [EvalRecord.toJson, CriterionScore.toJson, Json.obj.injEq, List.cons.injEq,
      Prod.mk.injEq, Json.int.injEq, Json.str.injEq, and_true, true_and] at h
    obtain ⟨⟨⟨ha1, ha2⟩, ⟨hb1, hb2⟩, ⟨hc1, hc2⟩, ⟨hd1, hd2⟩, ⟨he1, he2⟩⟩,
      ⟨hf1, hf2⟩, ⟨hg1, hg2, hg3⟩, hh8⟩ := h
    subst ha1; subst ha2; subst hb1; subst hb2; subst hc1; subst hc2
    subst hd1; subst hd2; subst he1; subst he2; subst hf1; subst hf2
    subst hg1; subst hg2; subst hg3; subst hh8
    rfl

/-- C3 witness at the content-gap sample record. -/
theorem C3_witness :
    parse_model_output (wrapJsonFence (json_dumps sampleContentGap.toJson)) =
      sampleContentGap.toJson ∧
    sampleContentGap = sampleContentGap :=
  ⟨(C3_decoder_roundtrip sampleContentGap).1,
   (C3_decoder_roundtrip sampleContentGap).2 sampleContentGap rfl⟩
